import Mathlib

/-!
Verification of the reservation-gated deduplication and forwarding pipeline
(`deal_forwarder_bot_render.py`).

The development shallowly embeds the pure content of the script:

* text normalisation (`normalize_text`), hashing (`text_hash` = SHA-256 hex
  digest of the UTF-8 encoding), URL extraction (`extract_urls`) and
  product-key extraction (`extract_product_key`);
* the store adapter `_db_try_insert_sync` (insert-first with the `23505`
  unique-violation check) and `_db_delete_by_id_sync` over an explicit
  table model of the `forwarded_deals` relation;
* the per-event orchestration of the single-message handler (`handler`) and
  the album handler (`album_handler`): key derivation, reservation,
  forwarding with the single FloodWait retry, and the rollback paths.

External effects (Telegram sends, the Supabase transport, the delete call)
are driven by an explicit environment record describing how each call would
behave; the run functions thread that environment through the control flow
that the Python code actually has.  Concurrency of two handler runs against
the shared table is modelled by a small-step interleaving relation.
-/

/-! ### Basic list/string utilities (Python `in`, `strip`, slicing) -/

/-- Characters Python's `str.strip` / `\s` treat as whitespace (ASCII fragment,
which covers every input considered in this development). -/
def isSpaceChar (c : Char) : Bool :=
  c = ' ' || c = '\t' || c = '\n' || c = '\x0d' || c = '\x0b' || c = '\x0c'

/-- Word characters of the regex class `\w` (ASCII fragment: letters, digits,
underscore). -/
def isWordChar (c : Char) : Bool :=
  c.isAlphanum || c = '_'

/-- Does the second list start with the first one (char-exact)? -/
def listStartsWith : List Char → List Char → Bool
  | [], _ => true
  | _ :: _, [] => false
  | a :: as, b :: bs => a == b && listStartsWith as bs

/-- Does the second list start with the first one, comparing after ASCII
lowercasing (regex `re.IGNORECASE`)? -/
def ciStartsWith : List Char → List Char → Bool
  | [], _ => true
  | _ :: _, [] => false
  | a :: as, b :: bs => a.toLower == b.toLower && ciStartsWith as bs

/-- Python's substring test `needle in hay` on char lists. -/
def listHasSub (needle : List Char) : List Char → Bool
  | [] => listStartsWith needle []
  | c :: cs => listStartsWith needle (c :: cs) || listHasSub needle cs

/-- Python's `needle in hay` on strings. -/
def strContains (hay needle : String) : Bool :=
  listHasSub needle.data hay.data

/-- Python `str.strip()` (no argument): drop whitespace from both ends. -/
def pyStrip (s : String) : String :=
  String.mk (((s.data.dropWhile isSpaceChar).reverse.dropWhile isSpaceChar).reverse)

/-- Python `s.rstrip(cs)`: drop trailing characters belonging to `cs`. -/
def pyRstrip (cs : List Char) (s : String) : String :=
  String.mk ((s.data.reverse.dropWhile (fun c => cs.contains c)).reverse)

/-- Python slicing `s[:n]` on a string. -/
def pyTake (n : Nat) (s : String) : String :=
  String.mk (s.data.take n)

/-! ### `normalize_text` -/

/-- Helper for `collapseWs`: the flag records whether the previous character
was part of a whitespace run already emitted as a single space. -/
def collapseWsGo : Bool → List Char → List Char
  | _, [] => []
  | prevSpace, c :: cs =>
    if isSpaceChar c then
      if prevSpace then collapseWsGo true cs else ' ' :: collapseWsGo true cs
    else
      c :: collapseWsGo false cs

/-- Replace each maximal run of whitespace by a single space
(`re.sub(r"\s+", " ", text)`). -/
def collapseWs (l : List Char) : List Char :=
  collapseWsGo false l

/-- `normalize_text`: lowercase, replace every character that is neither a
word character nor whitespace by a space (`re.sub(r"[^\w\s]", " ", ...)`),
collapse whitespace runs to single spaces, strip. -/
def normalize_text (text : String) : String :=
  let lowered := text.data.map Char.toLower
  let depunct := lowered.map (fun c => if !(isWordChar c || isSpaceChar c) then ' ' else c)
  pyStrip (String.mk (collapseWs depunct))

/-! ### SHA-256 (`hashlib.sha256(...).hexdigest()`) over `Nat` words -/

/-- Truncation to a 32-bit word. -/
def w32 (n : Nat) : Nat := n % 4294967296

/-- Right rotation of a 32-bit word. -/
def rotr32 (x n : Nat) : Nat := w32 ((x >>> n) ||| (x <<< (32 - n)))

/-- SHA-256 small sigma 0. -/
def ssig0 (x : Nat) : Nat := (rotr32 x 7) ^^^ (rotr32 x 18) ^^^ (x >>> 3)

/-- SHA-256 small sigma 1. -/
def ssig1 (x : Nat) : Nat := (rotr32 x 17) ^^^ (rotr32 x 19) ^^^ (x >>> 10)

/-- SHA-256 big sigma 0. -/
def bsig0 (x : Nat) : Nat := (rotr32 x 2) ^^^ (rotr32 x 13) ^^^ (rotr32 x 22)

/-- SHA-256 big sigma 1. -/
def bsig1 (x : Nat) : Nat := (rotr32 x 6) ^^^ (rotr32 x 11) ^^^ (rotr32 x 25)

/-- SHA-256 choice function. -/
def chF (x y z : Nat) : Nat := (x &&& y) ^^^ ((x ^^^ 4294967295) &&& z)

/-- SHA-256 majority function. -/
def majF (x y z : Nat) : Nat := (x &&& y) ^^^ (x &&& z) ^^^ (y &&& z)

/-- The 64 SHA-256 round constants. -/
def sha256k : List Nat :=
  [1116352408, 1899447441, 3049323471, 3921009573, 961987163,
   1508970993, 2453635748, 2870763221, 3624381080, 310598401,
   607225278, 1426881987, 1925078388, 2162078206, 2614888103,
   3248222580, 3835390401, 4022224774, 264347078, 604807628,
   770255983, 1249150122, 1555081692, 1996064986, 2554220882,
   2821834349, 2952996808, 3210313671, 3336571891, 3584528711,
   113926993, 338241895, 666307205, 773529912, 1294757372,
   1396182291, 1695183700, 1986661051, 2177026350, 2456956037,
   2730485921, 2820302411, 3259730800, 3345764771, 3516065817,
   3600352804, 4094571909, 275423344, 430227734, 506948616,
   659060556, 883997877, 958139571, 1322822218, 1537002063,
   1747873779, 1955562222, 2024104815, 2227730452, 2361852424,
   2428436474, 2756734187, 3204031479, 3329325298]

/-- Initial SHA-256 hash state `[a,b,c,d,e,f,g,h]`. -/
def sha256init : List Nat :=
  [1779033703, 3144134277, 1013904242, 2773480762,
   1359893119, 2600822924, 528734635, 1541459225]

/-- Big-endian byte decomposition on `k` bytes. -/
def toBytesBE : Nat → Nat → List Nat
  | 0, _ => []
  | k + 1, n => toBytesBE k (n / 256) ++ [n % 256]

/-- SHA-256 message padding: append `0x80`, zeros, and the 64-bit big-endian
bit length, reaching a multiple of 64 bytes. -/
def sha256pad (msg : List Nat) : List Nat :=
  let len := msg.length
  msg ++ [0x80] ++ List.replicate ((119 - len % 64) % 64) 0 ++ toBytesBE 8 (len * 8)

/-- Helper for `chunks64`; the fuel always exceeds the number of chunks. -/
def chunks64Go : Nat → List Nat → List (List Nat)
  | 0, _ => []
  | _, [] => []
  | fuel + 1, c :: cs => ((c :: cs).take 64) :: chunks64Go fuel ((c :: cs).drop 64)

/-- Split a byte list into 64-byte chunks. -/
def chunks64 (l : List Nat) : List (List Nat) :=
  chunks64Go l.length l

/-- Big-endian 4-byte words from a byte list. -/
def bytesToWords : List Nat → List Nat
  | a :: b :: c :: d :: rest => (((a * 256 + b) * 256 + c) * 256 + d) :: bytesToWords rest
  | _ => []

/-- Extend a 16-word schedule by `n` further words. -/
def extendW (w : List Nat) : Nat → List Nat
  | 0 => w
  | n + 1 =>
    let i := w.length
    let wi := w32 (ssig1 (w.getD (i - 2) 0) + w.getD (i - 7) 0 +
                   ssig0 (w.getD (i - 15) 0) + w.getD (i - 16) 0)
    extendW (w ++ [wi]) n

/-- One SHA-256 compression round on the state `[a,b,c,d,e,f,g,h]`;
`kw` pairs the round constant with the schedule word. -/
def sha256round (st : List Nat) (kw : Nat × Nat) : List Nat :=
  match st with
  | [a, b, c, d, e, f, g, h] =>
    let t1 := w32 (h + bsig1 e + chF e f g + kw.1 + kw.2)
    let t2 := w32 (bsig0 a + majF a b c)
    [w32 (t1 + t2), a, b, c, w32 (d + t1), e, f, g]
  | _ => st

/-- Process one 64-byte chunk, updating the 8-word hash state. -/
def sha256chunk (h : List Nat) (chunk : List Nat) : List Nat :=
  let w := extendW (bytesToWords chunk) 48
  let st := (sha256k.zip w).foldl sha256round h
  (h.zip st).map (fun p => w32 (p.1 + p.2))

/-- Lowercase hex digit. -/
def hexDigit (n : Nat) : Char :=
  if n < 10 then Char.ofNat (48 + n) else Char.ofNat (87 + n)

/-- Lowercase 8-hex-digit rendering of a 32-bit word. -/
def wordHex (n : Nat) : List Char :=
  (List.range 8).map (fun i => hexDigit ((n >>> ((7 - i) * 4)) &&& 15))

/-- SHA-256 lowercase hex digest of a byte list. -/
def sha256hex (bytes : List Nat) : String :=
  String.mk ((((chunks64 (sha256pad bytes)).foldl sha256chunk sha256init).map wordHex).flatten)

/-- UTF-8 encoding of one code point. -/
def utf8Char (c : Nat) : List Nat :=
  if c < 0x80 then [c]
  else if c < 0x800 then
    [0xC0 ||| (c >>> 6), 0x80 ||| (c &&& 0x3F)]
  else if c < 0x10000 then
    [0xE0 ||| (c >>> 12), 0x80 ||| ((c >>> 6) &&& 0x3F), 0x80 ||| (c &&& 0x3F)]
  else
    [0xF0 ||| (c >>> 18), 0x80 ||| ((c >>> 12) &&& 0x3F),
     0x80 ||| ((c >>> 6) &&& 0x3F), 0x80 ||| (c &&& 0x3F)]

/-- UTF-8 encoding of a string (`text.encode("utf-8")`). -/
def utf8Bytes (s : String) : List Nat :=
  (s.data.map (fun c => utf8Char c.toNat)).flatten

/-- `text_hash`: SHA-256 hex digest of the UTF-8 encoded text. -/
def text_hash (text : String) : String :=
  sha256hex (utf8Bytes text)

/-! ### URL extraction (`_URL_RE` and `extract_urls`) -/

/-- Characters admitted inside a URL by the regex class `[^\s<>"]`. -/
def urlAllowedChar (c : Char) : Bool :=
  !(isSpaceChar c || c = '<' || c = '>' || c = '"')

/-- Try to match `https?://[^\s<>"]+` at the head of `s` (case-insensitive
protocol, as `_URL_RE` is compiled with `re.IGNORECASE`); on success return
the matched characters (original case) and the remainder of the input. -/
def tryUrlAt (s : List Char) : Option (List Char × List Char) :=
  let plen : Option Nat :=
    if ciStartsWith "https://".data s then some 8
    else if ciStartsWith "http://".data s then some 7
    else none
  match plen with
  | none => none
  | some n =>
    let rest := s.drop n
    let run := rest.takeWhile urlAllowedChar
    if run.isEmpty then none
    else some (s.take (n + run.length), rest.drop run.length)

/-- Left-to-right non-overlapping scan for `_URL_RE` matches
(`finditer` semantics); the fuel always exceeds the input length. -/
def scanUrlsGo : Nat → List Char → List (List Char)
  | 0, _ => []
  | _, [] => []
  | fuel + 1, c :: cs =>
    match tryUrlAt (c :: cs) with
    | some (url, rest) => url :: scanUrlsGo fuel rest
    | none => scanUrlsGo fuel cs

/-- The trailing punctuation characters removed from each URL match: the
closing parenthesis, period, comma, semicolon, exclamation and question
marks, colon, closing square and curly brackets, single and double quotes. -/
def urlRstripSet : List Char :=
  [')', '.', ',', ';', '!', '?', ':', ']', Char.ofNat 125, Char.ofNat 39, Char.ofNat 34]

/-- `extract_urls`: every `_URL_RE` match, stripped of surrounding whitespace
and of the trailing punctuation set. -/
def extract_urls (text : String) : List String :=
  (scanUrlsGo text.data.length text.data).map
    (fun u => pyRstrip urlRstripSet (pyStrip (String.mk u)))

/-! ### `extract_product_key` -/

/-- Uppercase letters and digits: the regex class `[A-Z0-9]`. -/
def isUpperAlnum (c : Char) : Bool :=
  ('A' ≤ c && c ≤ 'Z') || ('0' ≤ c && c ≤ '9')

/-- Letters and digits: the regex class `[A-Z0-9]` under `re.IGNORECASE`
(equivalently `[a-zA-Z0-9]`). -/
def isAsciiAlnum (c : Char) : Bool :=
  ('A' ≤ c && c ≤ 'Z') || ('a' ≤ c && c ≤ 'z') || ('0' ≤ c && c ≤ '9')

/-- Generic leftmost-match search: apply the position matcher `f` at every
suffix of the input, as `re.search` tries every start position. -/
def searchGo (f : List Char → Option (List Char)) : List Char → Option (List Char)
  | [] => f []
  | c :: cs =>
    match f (c :: cs) with
    | some r => some r
    | none => searchGo f cs

/-- Matcher for `/dp/([A-Z0-9]{10})(?:[/?]|$)` at the current position:
the literal `/dp/`, exactly ten uppercase alphanumerics, then `/`, `?`
or the end of the input. -/
def matchDpAt (s : List Char) : Option (List Char) :=
  if listStartsWith "/dp/".data s then
    let t := s.drop 4
    let code := t.take 10
    if code.length == 10 && code.all isUpperAlnum &&
       (match t.drop 10 with
        | [] => true
        | d :: _ => d == '/' || d == '?') then
      some code
    else none
  else none

/-- Matcher for `/gp/product/([A-Z0-9]{10})(?:[/?]|$)` at the current
position. -/
def matchGpAt (s : List Char) : Option (List Char) :=
  if listStartsWith "/gp/product/".data s then
    let t := s.drop 12
    let code := t.take 10
    if code.length == 10 && code.all isUpperAlnum &&
       (match t.drop 10 with
        | [] => true
        | d :: _ => d == '/' || d == '?') then
      some code
    else none
  else none

/-- Matcher for `(?:asin=|ASIN=)([A-Z0-9]{10})` at the current position
(case-sensitive, exactly the two literal spellings of the parameter). -/
def matchAsinAt (s : List Char) : Option (List Char) :=
  let tryLit : String → Option (List Char) := fun lit =>
    if listStartsWith lit.data s then
      let code := (s.drop lit.data.length).take 10
      if code.length == 10 && code.all isUpperAlnum then some code else none
    else none
  match tryLit "asin=" with
  | some r => some r
  | none => tryLit "ASIN="

/-- Matcher for `(?:\?|&)pid=([A-Z0-9]{8,20})(?:&|$)` under `re.IGNORECASE`
at the current position.  The greedy bounded repetition can only succeed on
the maximal alphanumeric run (a shorter prefix is followed by another
alphanumeric, which is neither `&` nor the end), so the run must have length
between 8 and 20 and be followed by `&` or the end of the input. -/
def matchPidAt (s : List Char) : Option (List Char) :=
  match s with
  | [] => none
  | c :: rest =>
    if (c == '?' || c == '&') && ciStartsWith "pid=".data rest then
      let t := rest.drop 4
      let run := t.takeWhile isAsciiAlnum
      if 8 ≤ run.length && run.length ≤ 20 &&
         (match t.drop run.length with
          | [] => true
          | d :: _ => d == '&') then
        some run
      else none
    else none

/-- Matcher for `(itm[a-zA-Z0-9]{6,})(?:[/?]|$)` at the current position
(case-sensitive `itm`).  As with `pid`, greediness forces the maximal
alphanumeric run after `itm`, of length at least 6, followed by `/`, `?`
or the end of the input; the captured group includes the `itm` literal. -/
def matchItmAt (s : List Char) : Option (List Char) :=
  if listStartsWith "itm".data s then
    let t := s.drop 3
    let run := t.takeWhile isAsciiAlnum
    if 6 ≤ run.length &&
       (match t.drop run.length with
        | [] => true
        | d :: _ => d == '/' || d == '?') then
      some ("itm".data ++ run)
    else none
  else none

/-- `extract_product_key`: try the Amazon patterns (`/dp/`, `/gp/product/`,
`asin=`/`ASIN=`) and then the Flipkart patterns (`pid=`, `itm...`), each by
a leftmost `re.search`, returning `amazon_<id>` or `flipkart_<id>`; `None`
for the empty URL or when nothing matches. -/
def extract_product_key (url : String) : Option String :=
  if url == "" then none
  else
    match searchGo matchDpAt url.data with
    | some code => some ("amazon_" ++ String.mk code)
    | none =>
      match searchGo matchGpAt url.data with
      | some code => some ("amazon_" ++ String.mk code)
      | none =>
        match searchGo matchAsinAt url.data with
        | some code => some ("amazon_" ++ String.mk code)
        | none =>
          match searchGo matchPidAt url.data with
          | some code => some ("flipkart_" ++ String.mk code)
          | none =>
            match searchGo matchItmAt url.data with
            | some code => some ("flipkart_" ++ String.mk code)
            | none => none

/-! ### Key derivation as performed by the handlers -/

/-- The first product key among the extracted URLs, as computed by the
`for u in urls` loop in both handlers. -/
def firstProductKey (urls : List String) : Option String :=
  urls.findSome? extract_product_key

/-- The synthetic normalized text substituted for a media-only message
(`f"media_only_(event.chat_id)_(msg.id)"`). -/
def mediaOnlyText (chatId : Int) (msgId : Nat) : String :=
  s!"media_only_{chatId}_{msgId}"

/-- Key derivation of the single-message `handler`: first product key of the
URLs in the body if any, else `text_` followed by the hash of the normalized
body, where an empty normalized body of a media message is replaced by the
synthetic `media_only` text. -/
def singleKey (text : String) (hasMedia : Bool) (chatId : Int) (msgId : Nat) : String :=
  match firstProductKey (extract_urls text) with
  | some k => k
  | none =>
    let normalized := normalize_text text
    let normalized := if hasMedia && normalized == "" then mediaOnlyText chatId msgId else normalized
    "text_" ++ text_hash normalized

/-- Key derivation of `album_handler` over the joined member texts: first
product key of the URLs if any, else `album_` followed by the hash of the
normalized joined text. -/
def albumKey (allText : String) : String :=
  match firstProductKey (extract_urls allText) with
  | some k => k
  | none => "album_" ++ text_hash (normalize_text allText)

/-! ### Events, environments and run results -/

/-- Outcome of one orchestrator run, as logged by the handlers. -/
inductive Outcome
  | ignored
  | storeError
  | duplicate
  | empty
  | forwarded
  | rolledBack
deriving DecidableEq, Repr

/-- Behaviour of one transport send call: success, `FloodWaitError` with the
required wait, or any other exception. -/
inductive SendRes
  | ok
  | floodWait (seconds : Nat)
  | err
deriving DecidableEq, Repr

/-- Raw response of the store to the insert: the inserted row data (with its
`id`, absent if the response carried no data) or an `APIError` with message
text. -/
inductive StoreResp
  | data (rowId : Option Nat)
  | apiError (msg : String)
deriving DecidableEq, Repr

/-- Behaviour of the transport and delete calls a run may make: results of
the first and second send attempts and of the first and second release
(delete) calls, in call order within one run. -/
structure NetEnv where
  send1 : SendRes
  send2 : SendRes
  release1Ok : Bool
  release2Ok : Bool
deriving DecidableEq, Repr

/-- Full environment of one run: the store's insert response plus the
transport behaviour. -/
structure Env extends NetEnv where
  insertResp : StoreResp
deriving DecidableEq, Repr

/-- A single inbound message as the handler reads it: chat id, message id,
optional body, media flag, optional album group id. -/
structure Msg where
  chatId : Int
  msgId : Nat
  text : Option String
  hasMedia : Bool
  groupedId : Option Nat
deriving DecidableEq, Repr

/-- One album member (text and media flag). -/
structure AMsg where
  text : Option String
  hasMedia : Bool
deriving DecidableEq, Repr

/-- Observable summary of one handler run: final logged outcome, derived key,
number of insert attempts, transport send attempts and successful deliveries,
sleep durations, release (delete) attempts, whether the empty-skip line was
logged, and whether some release call actually removed the row. -/
structure RunResult where
  outcome : Outcome
  key : Option String
  insertAttempts : Nat
  sendAttempts : Nat
  delivered : Nat
  sleeps : List Nat
  releaseAttempts : Nat
  emptyLogged : Bool
  releaseEffective : Bool
deriving DecidableEq, Repr

/-! ### The store adapter `_db_try_insert_sync` -/

/-- `_db_try_insert_sync`, given the store's raw response: a data response
yields `(True, inserted_id)`; an `APIError` whose text contains `23505`
yields `(False, None)` (duplicate); any other `APIError` is re-raised. -/
def db_try_insert (resp : StoreResp) : Except String (Bool × Option Nat) :=
  match resp with
  | .data rowId => Except.ok (true, rowId)
  | .apiError msg =>
    if strContains msg "23505" then Except.ok (false, none) else Except.error msg

/-! ### The forward / rollback section of the handlers -/

/-- Result skeleton shared by the early-return paths. -/
def baseRun (o : Outcome) (key : Option String) (ins : Nat) : RunResult :=
  { outcome := o, key := key, insertAttempts := ins, sendAttempts := 0,
    delivered := 0, sleeps := [], releaseAttempts := 0, emptyLogged := false,
    releaseEffective := false }

/-- The nested send-with-retry of both handlers, entered when a transport
call is actually made: on success FORWARDED; on `FloodWaitError fw` sleep
`fw.seconds + 1` and retry the same send once, any failure of the retry
being caught by the outer handler; every failure path performs the rollback
delete (when a row id is known), whose own failure is only logged. -/
def sendFlow (hasRid : Bool) (env : NetEnv) : RunResult :=
  match env.send1 with
  | .ok =>
    { outcome := .forwarded, key := none, insertAttempts := 1, sendAttempts := 1,
      delivered := 1, sleeps := [], releaseAttempts := 0, emptyLogged := false,
      releaseEffective := false }
  | .err =>
    { outcome := .rolledBack, key := none, insertAttempts := 1, sendAttempts := 1,
      delivered := 0, sleeps := [], releaseAttempts := if hasRid then 1 else 0,
      emptyLogged := false, releaseEffective := hasRid && env.release1Ok }
  | .floodWait s =>
    match env.send2 with
    | .ok =>
      { outcome := .forwarded, key := none, insertAttempts := 1, sendAttempts := 2,
        delivered := 1, sleeps := [s + 1], releaseAttempts := 0, emptyLogged := false,
        releaseEffective := false }
    | _ =>
      { outcome := .rolledBack, key := none, insertAttempts := 1, sendAttempts := 2,
        delivered := 0, sleeps := [s + 1], releaseAttempts := if hasRid then 1 else 0,
        emptyLogged := false, releaseEffective := hasRid && env.release1Ok }

/-- The empty-message path of the single handler: log the empty-skip line,
delete the reservation when a row id is known, and return.  The delete runs
inside the outer `try`, so if it raises, the general exception branch makes
a second delete attempt and logs the forward-failed line. -/
def emptyPath (rid : Option Nat) (env : NetEnv) : RunResult :=
  match rid with
  | none =>
    { outcome := .empty, key := none, insertAttempts := 1, sendAttempts := 0,
      delivered := 0, sleeps := [], releaseAttempts := 0, emptyLogged := true,
      releaseEffective := false }
  | some _ =>
    if env.release1Ok then
      { outcome := .empty, key := none, insertAttempts := 1, sendAttempts := 0,
        delivered := 0, sleeps := [], releaseAttempts := 1, emptyLogged := true,
        releaseEffective := true }
    else
      { outcome := .rolledBack, key := none, insertAttempts := 1, sendAttempts := 0,
        delivered := 0, sleeps := [], releaseAttempts := 2, emptyLogged := true,
        releaseEffective := env.release2Ok }

/-- The forward-and-rollback section of the single handler after a successful
reservation: media messages send the media, messages with non-blank text
send the text, and otherwise the empty path runs. -/
def postReserveSingle (hasMedia : Bool) (text : String) (rid : Option Nat)
    (env : NetEnv) : RunResult :=
  if hasMedia then sendFlow rid.isSome env
  else if pyStrip text != "" then sendFlow rid.isSome env
  else emptyPath rid env

/-! ### The single-message handler -/

/-- One run of the single-message `handler`, driven by the environment:
messages with a `grouped_id` are ignored; otherwise the key is derived, the
insert-first reservation is attempted (store error aborting the run,
duplicate skipping it), and the forward / rollback section runs. -/
def runSingle (msg : Msg) (env : Env) : RunResult :=
  if msg.groupedId.isSome then baseRun .ignored none 0
  else
    let text := msg.text.getD ""
    let key := singleKey text msg.hasMedia msg.chatId msg.msgId
    match db_try_insert env.insertResp with
    | .error _ => baseRun .storeError (some key) 1
    | .ok (false, _) => baseRun .duplicate (some key) 1
    | .ok (true, rid) =>
      { postReserveSingle msg.hasMedia text rid env.toNetEnv with
        key := some key, insertAttempts := 1 }

/-! ### The album handler -/

/-- The space-joined concatenation of the truthy member texts
(`" ".join((m.message or "") for m in event.messages if m.message)`). -/
def albumAllText (msgs : List AMsg) : String :=
  String.intercalate " " (msgs.filterMap (fun m =>
    match m.text with
    | some t => if t != "" then some t else none
    | none => none))

/-- The first truthy member text, used by `forward_album` as the caption. -/
def albumCaption (msgs : List AMsg) : Option String :=
  msgs.findSome? (fun m =>
    match m.text with
    | some t => if t != "" then some t else none
    | none => none)

/-- What `forward_album` does: a grouped media send when any member has
media; otherwise a text send of the caption (which `forward_text` skips
when blank); otherwise no transport call at all. -/
inductive AlbumSendKind
  | group
  | textOnly (caption : String)
  | silent
deriving DecidableEq, Repr

/-- Classify the transport call `forward_album` makes for these members. -/
def albumSendKind (msgs : List AMsg) : AlbumSendKind :=
  if msgs.any (fun m => m.hasMedia) then .group
  else
    match albumCaption msgs with
    | some c => if pyStrip c != "" then .textOnly c else .silent
    | none => .silent

/-- One run of `album_handler`: derive the group key from the joined texts,
attempt the reservation, and forward with the same retry-once and rollback
structure; when `forward_album` makes no transport call at all, the run
still logs FORWARDED. -/
def runAlbum (msgs : List AMsg) (env : Env) : RunResult :=
  let allText := albumAllText msgs
  let key := albumKey allText
  match db_try_insert env.insertResp with
  | .error _ => baseRun .storeError (some key) 1
  | .ok (false, _) => baseRun .duplicate (some key) 1
  | .ok (true, rid) =>
    match albumSendKind msgs with
    | .silent => baseRun .forwarded (some key) 1
    | _ => { sendFlow rid.isSome env.toNetEnv with key := some key, insertAttempts := 1 }

/-! ### The `forwarded_deals` table and the store's insert semantics -/

/-- One persisted reservation row. -/
structure Row where
  rowId : Nat
  product_key : String
  day_bucket : String
  product_name : String
  source_channel : String
deriving DecidableEq, Repr

/-- The `forwarded_deals` table: rows plus the next identity value. -/
structure Table where
  rows : List Row
  nextId : Nat
deriving DecidableEq, Repr

/-- Does a row for this `(product_key, day_bucket)` pair exist? -/
def hasKB (t : Table) (k b : String) : Bool :=
  t.rows.any (fun r => r.product_key == k && r.day_bucket == b)

/-- Insert a fresh row, returning its identity. -/
def tableInsert (t : Table) (k b nm tg : String) : Nat × Table :=
  (t.nextId, ⟨t.rows ++ [⟨t.nextId, k, b, nm, tg⟩], t.nextId + 1⟩)

/-- `_db_delete_by_id_sync`: delete by row identity. -/
def tableDelete (t : Table) (rid : Nat) : Table :=
  ⟨t.rows.filter (fun r => r.rowId != rid), t.nextId⟩

/-- Message text of the `APIError` the store raises on a violation of the
`(product_key, day_bucket)` uniqueness constraint; per PostgREST it carries
the Postgres error code `23505`. -/
def uniqueViolationMsg : String :=
  "duplicate key value violates unique constraint, code 23505"

/-- Well-formedness of the table: identities are below `nextId` and the
`(product_key, day_bucket)` uniqueness constraint holds. -/
def tableWF (t : Table) : Prop :=
  (∀ r ∈ t.rows, r.rowId < t.nextId) ∧
  (∀ r1 ∈ t.rows, ∀ r2 ∈ t.rows,
    r1.product_key = r2.product_key → r1.day_bucket = r2.day_bucket → r1 = r2)

/-! ### Two concurrent single-handler runs against the shared table -/

/-- Specification of one single-handler run racing on the shared table: its
message, the day bucket its insert uses, the `product_name`/`source_channel`
columns, an optional injected store fault (an `APIError` raised instead of a
delivered insert), and the transport behaviour. -/
structure RunSpec where
  msg : Msg
  bucket : String
  tag : String
  insertFault : Option String
  net : NetEnv
deriving DecidableEq, Repr

/-- The dedup key this run derives before touching the store. -/
def runKey (r : RunSpec) : String :=
  singleKey (r.msg.text.getD "") r.msg.hasMedia r.msg.chatId r.msg.msgId

/-- Local control state of one run: before its insert, holding a reservation,
or finished with an outcome (remembering its row id, if any, and how many
transport sends it attempted). -/
inductive CPhase
  | start
  | reserved (rid : Nat)
  | done (o : Outcome) (rid : Option Nat) (sends : Nat)
deriving DecidableEq, Repr

/-- Is the phase terminal? -/
def isDone : CPhase → Bool
  | .done _ _ _ => true
  | _ => false

/-- The store's response to this run's insert against the current table,
with the updated table: an injected fault is raised as-is; a present
`(key, bucket)` row raises the unique-violation `APIError`; otherwise the
row is inserted with a fresh identity and returned. -/
def insRespond (r : RunSpec) (t : Table) : StoreResp × Table :=
  match r.insertFault with
  | some m => (.apiError m, t)
  | none =>
    if hasKB t (runKey r) r.bucket then (.apiError uniqueViolationMsg, t)
    else
      let p := tableInsert t (runKey r) r.bucket
        (pyTake 200 (normalize_text (r.msg.text.getD ""))) r.tag
      (.data (some p.1), p.2)

/-- The insert step of a run: the store responds, `_db_try_insert_sync`
translates the response, and the run either aborts (store error), skips
(duplicate) or becomes reserved.  A successful insert always carries the
fresh row id, so the `getD` default is never used. -/
def insStep (r : RunSpec) (t : Table) : Table × CPhase :=
  let p := insRespond r t
  match db_try_insert p.1 with
  | .error _ => (p.2, .done .storeError none 0)
  | .ok (false, _) => (p.2, .done .duplicate none 0)
  | .ok (true, rid) => (p.2, .reserved (rid.getD 0))

/-- The post-reservation step of a run: the forward / rollback section runs,
and the reservation row is removed exactly when some delete call took
effect. -/
def finStep (r : RunSpec) (t : Table) (rid : Nat) : Table × CPhase :=
  let res := postReserveSingle r.msg.hasMedia (r.msg.text.getD "") (some rid) r.net
  ((if res.releaseEffective then tableDelete t rid else t),
   .done res.outcome (some rid) res.sendAttempts)

/-- One atomic step of a run against the table. -/
def runStep (r : RunSpec) (t : Table) : CPhase → Table × CPhase
  | .start => insStep r t
  | .reserved rid => finStep r t rid
  | .done o rid s => (t, .done o rid s)

/-- A configuration of the two-run system. -/
structure CConf where
  table : Table
  pa : CPhase
  pb : CPhase
deriving DecidableEq, Repr

/-- Interleaving semantics: at each step either unfinished run advances. -/
inductive CStep (ra rb : RunSpec) : CConf → CConf → Prop
  | stepA (t : Table) (pa pb : CPhase) (h : isDone pa = false) :
      CStep ra rb ⟨t, pa, pb⟩ ⟨(runStep ra t pa).1, (runStep ra t pa).2, pb⟩
  | stepB (t : Table) (pa pb : CPhase) (h : isDone pb = false) :
      CStep ra rb ⟨t, pa, pb⟩ ⟨(runStep rb t pb).1, pa, (runStep rb t pb).2⟩

/-- Reachability from both runs at `start` over an initial table. -/
def CReach (ra rb : RunSpec) (t0 : Table) (c : CConf) : Prop :=
  Relation.ReflTransGen (CStep ra rb) ⟨t0, .start, .start⟩ c

/-! ### Helper lemmas about the forward / rollback section -/

/-- The structural facts about the forward / rollback section the invariant
needs: a FORWARDED outcome never deleted the row, the section never produces
a DUPLICATE (or IGNORED or STORE-ERROR) outcome, it attempts at most two
transport sends, delivers at most once, and on a ROLLED-BACK outcome with a
known row id it attempted the release at least once. -/
theorem postReserveSingle_spec (hm : Bool) (txt : String) (rid : Option Nat) (e : NetEnv) :
    ((postReserveSingle hm txt rid e).outcome = .forwarded →
      (postReserveSingle hm txt rid e).releaseAttempts = 0 ∧
      (postReserveSingle hm txt rid e).releaseEffective = false) ∧
    (postReserveSingle hm txt rid e).outcome ≠ .duplicate ∧
    (postReserveSingle hm txt rid e).outcome ≠ .ignored ∧
    (postReserveSingle hm txt rid e).outcome ≠ .storeError ∧
    (postReserveSingle hm txt rid e).sendAttempts ≤ 2 ∧
    (postReserveSingle hm txt rid e).delivered ≤ 1 ∧
    ((postReserveSingle hm txt rid e).outcome = .rolledBack → rid.isSome = true →
      1 ≤ (postReserveSingle hm txt rid e).releaseAttempts) := by
  unfold postReserveSingle sendFlow emptyPath
  rcases e with ⟨s1, s2, r1, r2⟩
  cases hm <;> cases rid <;> cases s1 <;> cases s2 <;> cases r1 <;> cases r2 <;>
    by_cases h : pyStrip txt != "" <;> simp_all

/-- The unique-violation message does contain the Postgres code `23505`. -/
theorem uviol_contains : strContains uniqueViolationMsg "23505" = true := by decide

/-! ### The race invariant -/

/-- The row id a phase holds, if any. -/
def phaseRid : CPhase → Option Nat
  | .start => none
  | .reserved rid => some rid
  | .done _ rid _ => rid

/-- A run holding a reservation, or finished FORWARDED, still has its row
(with this key and bucket) in the table. -/
def holdsRow (k b : String) (t : Table) : CPhase → Prop
  | .reserved rid =>
      ∃ r ∈ t.rows, r.rowId = rid ∧ r.product_key = k ∧ r.day_bucket = b
  | .done .forwarded rid _ =>
      ∃ i, rid = some i ∧ ∃ r ∈ t.rows, r.rowId = i ∧ r.product_key = k ∧ r.day_bucket = b
  | _ => True

/-- A finished DUPLICATE run reserved nothing and attempted no send. -/
def dupZero : CPhase → Prop
  | .done .duplicate rid s => rid = none ∧ s = 0
  | _ => True

/-- The inductive invariant of the two-run race for key `k` and bucket `b`:
the table is well-formed, both runs' rows are where their phases say, held
row ids are fresh-bounded and distinct, and DUPLICATE exits are silent. -/
def RaceInv (k b : String) (c : CConf) : Prop :=
  tableWF c.table ∧
  holdsRow k b c.table c.pa ∧ holdsRow k b c.table c.pb ∧
  (∀ i, phaseRid c.pa = some i → i < c.table.nextId) ∧
  (∀ i, phaseRid c.pb = some i → i < c.table.nextId) ∧
  (∀ i j, phaseRid c.pa = some i → phaseRid c.pb = some j → i ≠ j) ∧
  dupZero c.pa ∧ dupZero c.pb

/-- A `hasKB`-free table has no row with the given key and bucket. -/
theorem hasKB_false (t : Table) (k b : String) (h : hasKB t k b = false) :
    ∀ r ∈ t.rows, ¬(r.product_key = k ∧ r.day_bucket = b) := by
  intro r hr hcon
  have htrue : hasKB t k b = true := by
    unfold hasKB
    refine List.any_eq_true.mpr ⟨r, hr, ?_⟩
    simp [hcon.1, hcon.2]
  simp [h] at htrue

/-- Deleting preserves table well-formedness. -/
theorem tableWF_delete (t : Table) (rid : Nat) (hwf : tableWF t) :
    tableWF (tableDelete t rid) := by
  obtain ⟨hid, huniq⟩ := hwf
  refine ⟨?_, ?_⟩
  · intro r hr
    exact hid r (List.mem_filter.mp hr).1
  · intro r1 h1 r2 h2 hk hb
    exact huniq r1 (List.mem_filter.mp h1).1 r2 (List.mem_filter.mp h2).1 hk hb

/-- Inserting a key/bucket pair not yet present preserves well-formedness. -/
theorem tableWF_insert (t : Table) (k b nm tg : String) (hwf : tableWF t)
    (habs : hasKB t k b = false) : tableWF (tableInsert t k b nm tg).2 := by
  obtain ⟨hid, huniq⟩ := hwf
  have habs' := hasKB_false t k b habs
  constructor
  · intro r hr
    rcases List.mem_append.mp hr with h | h
    · exact Nat.lt_succ_of_lt (hid r h)
    · simp at h
      simp [h, tableInsert]
  · intro r1 h1 r2 h2 hk hb
    rcases List.mem_append.mp h1 with ha | ha <;> rcases List.mem_append.mp h2 with hb2 | hb2
    · exact huniq r1 ha r2 hb2 hk hb
    · simp at hb2
      exfalso
      exact habs' r1 ha (by rw [hk, hb, hb2]; exact ⟨rfl, rfl⟩)
    · simp at ha
      exfalso
      exact habs' r2 hb2 (by rw [← hk, ← hb, ha]; exact ⟨rfl, rfl⟩)
    · simp at ha hb2
      rw [ha, hb2]

/-- A row survives the deletion of a different row id. -/
theorem mem_tableDelete (t : Table) (rid : Nat) (r : Row)
    (hr : r ∈ t.rows) (hne : r.rowId ≠ rid) : r ∈ (tableDelete t rid).rows :=
  List.mem_filter.mpr ⟨hr, by simpa using hne⟩

/-- `holdsRow` survives an insertion. -/
theorem holdsRow_insert (k b k' b' nm tg : String) (t : Table) (q : CPhase)
    (hq : holdsRow k b t q) : holdsRow k b (tableInsert t k' b' nm tg).2 q := by
  cases q with
  | start => trivial
  | reserved j =>
    obtain ⟨r, hr, h1, h2, h3⟩ := hq
    exact ⟨r, List.mem_append_left _ hr, h1, h2, h3⟩
  | done o rid s =>
    cases o with
    | forwarded =>
      obtain ⟨i, hi, r, hr, h1, h2, h3⟩ := hq
      exact ⟨i, hi, r, List.mem_append_left _ hr, h1, h2, h3⟩
    | ignored => trivial
    | storeError => trivial
    | duplicate => trivial
    | empty => trivial
    | rolledBack => trivial

/-- `holdsRow` survives the deletion of a row id the phase does not hold. -/
theorem holdsRow_delete (k b : String) (t : Table) (rid : Nat) (q : CPhase)
    (hq : holdsRow k b t q) (hne : ∀ j, phaseRid q = some j → j ≠ rid) :
    holdsRow k b (tableDelete t rid) q := by
  cases q with
  | start => trivial
  | reserved j =>
    obtain ⟨r, hr, h1, h2, h3⟩ := hq
    exact ⟨r, mem_tableDelete t rid r hr (by rw [h1]; exact hne j rfl), h1, h2, h3⟩
  | done o rid? s =>
    cases o with
    | forwarded =>
      obtain ⟨i, hi, r, hr, h1, h2, h3⟩ := hq
      exact ⟨i, hi, r, mem_tableDelete t rid r hr (by rw [h1]; exact hne i (by simp [phaseRid, hi])), h1, h2, h3⟩
    | ignored => trivial
    | storeError => trivial
    | duplicate => trivial
    | empty => trivial
    | rolledBack => trivial

/-- The `product_name` column value the single handler inserts. -/
def insName (x : RunSpec) : String :=
  pyTake 200 (normalize_text (x.msg.text.getD ""))

/-- Insert-step equation: an injected store fault whose text contains
`23505` is treated as a duplicate. -/
theorem insStep_fault_dup (x : RunSpec) (t : Table) (m : String)
    (hf : x.insertFault = some m) (hc : strContains m "23505" = true) :
    insStep x t = (t, .done .duplicate none 0) := by
  simp [insStep, insRespond, hf, db_try_insert, hc]

/-- Insert-step equation: an injected store fault without `23505` aborts the
run as a store error. -/
theorem insStep_fault_err (x : RunSpec) (t : Table) (m : String)
    (hf : x.insertFault = some m) (hc : strContains m "23505" = false) :
    insStep x t = (t, .done .storeError none 0) := by
  simp [insStep, insRespond, hf, db_try_insert, hc]

/-- Insert-step equation: a delivered insert that hits the `(key, bucket)`
uniqueness constraint ends the run as a duplicate, with no reservation and
no sends. -/
theorem insStep_hit (x : RunSpec) (t : Table)
    (hf : x.insertFault = none) (hKB : hasKB t (runKey x) x.bucket = true) :
    insStep x t = (t, .done .duplicate none 0) := by
  simp [insStep, insRespond, hf, hKB, db_try_insert, uviol_contains]

/-- Insert-step equation: a delivered insert on a free `(key, bucket)` pair
reserves the fresh row. -/
theorem insStep_fresh (x : RunSpec) (t : Table)
    (hf : x.insertFault = none) (hKB : hasKB t (runKey x) x.bucket = false) :
    insStep x t =
      ((tableInsert t (runKey x) x.bucket (insName x) x.tag).2, .reserved t.nextId) := by
  simp [insStep, insRespond, hf, hKB, db_try_insert, insName, tableInsert]

/-- Finish-step equation, naming the forward / rollback result. -/
theorem finStep_eq (x : RunSpec) (t : Table) (rid : Nat) :
    finStep x t rid =
      (if (postReserveSingle x.msg.hasMedia (x.msg.text.getD "") (some rid) x.net).releaseEffective
        then tableDelete t rid else t,
       .done (postReserveSingle x.msg.hasMedia (x.msg.text.getD "") (some rid) x.net).outcome
         (some rid)
         (postReserveSingle x.msg.hasMedia (x.msg.text.getD "") (some rid) x.net).sendAttempts) :=
  rfl

/-- One step of run `x` preserves every component of the race invariant for
`x`'s key and bucket, with `q` the other run's phase. -/
theorem raceInv_runStep (x : RunSpec) (t : Table) (p q : CPhase)
    (hwf : tableWF t) (hp : holdsRow (runKey x) x.bucket t p)
    (hq : holdsRow (runKey x) x.bucket t q)
    (hbp : ∀ i, phaseRid p = some i → i < t.nextId)
    (hbq : ∀ i, phaseRid q = some i → i < t.nextId)
    (hne : ∀ i j, phaseRid p = some i → phaseRid q = some j → i ≠ j)
    (hdp : dupZero p) (hdq : dupZero q) :
    tableWF (runStep x t p).1 ∧
    holdsRow (runKey x) x.bucket (runStep x t p).1 (runStep x t p).2 ∧
    holdsRow (runKey x) x.bucket (runStep x t p).1 q ∧
    (∀ i, phaseRid (runStep x t p).2 = some i → i < (runStep x t p).1.nextId) ∧
    (∀ i, phaseRid q = some i → i < (runStep x t p).1.nextId) ∧
    (∀ i j, phaseRid (runStep x t p).2 = some i → phaseRid q = some j → i ≠ j) ∧
    dupZero (runStep x t p).2 ∧ dupZero q := by
  cases p with
  | done o rid s =>
    exact ⟨hwf, hp, hq, hbp, hbq, hne, hdp, hdq⟩
  | start =>
    have hrw : runStep x t CPhase.start = insStep x t := rfl
    rw [hrw]
    cases hf : x.insertFault with
    | some m =>
      cases hc : strContains m "23505" with
      | true =>
        rw [insStep_fault_dup x t m hf hc]
        exact ⟨hwf, trivial, hq, by simp [phaseRid], hbq, by simp [phaseRid], ⟨rfl, rfl⟩, hdq⟩
      | false =>
        rw [insStep_fault_err x t m hf hc]
        exact ⟨hwf, trivial, hq, by simp [phaseRid], hbq, by simp [phaseRid], trivial, hdq⟩
    | none =>
      cases hKB : hasKB t (runKey x) x.bucket with
      | true =>
        rw [insStep_hit x t hf hKB]
        exact ⟨hwf, trivial, hq, by simp [phaseRid], hbq, by simp [phaseRid], ⟨rfl, rfl⟩, hdq⟩
      | false =>
        rw [insStep_fresh x t hf hKB]
        refine ⟨tableWF_insert t (runKey x) x.bucket _ _ hwf hKB, ?_, ?_, ?_, ?_, ?_, trivial, hdq⟩
        · exact ⟨⟨t.nextId, runKey x, x.bucket, insName x, x.tag⟩,
            List.mem_append_right _ (by simp [tableInsert]), rfl, rfl, rfl⟩
        · exact holdsRow_insert _ _ _ _ _ _ t q hq
        · intro i hi
          simp only [phaseRid] at hi
          cases hi
          simp [tableInsert]
        · intro i hi
          exact Nat.lt_succ_of_lt (hbq i hi)
        · intro i j hi hj
          simp only [phaseRid] at hi
          cases hi
          have := hbq j hj
          omega
  | reserved rid =>
    have hrw : runStep x t (CPhase.reserved rid) = finStep x t rid := rfl
    rw [hrw, finStep_eq]
    have hspec := postReserveSingle_spec x.msg.hasMedia (x.msg.text.getD "") (some rid) x.net
    generalize hres : postReserveSingle x.msg.hasMedia (x.msg.text.getD "") (some rid) x.net = res
    rw [hres] at hspec
    have hridq : ∀ j, phaseRid q = some j → j ≠ rid := by
      intro j hj
      exact fun hcon => (hne rid j rfl hj) hcon.symm
    cases heff : res.releaseEffective with
    | true =>
      have hout : res.outcome ≠ .forwarded := by
        intro hfwd
        rw [(hspec.1 hfwd).2] at heff
        cases heff
      simp only [reduceIte]
      refine ⟨tableWF_delete t rid hwf, ?_, ?_, ?_, ?_, ?_, ?_, hdq⟩
      · cases ho : res.outcome
        case ignored => trivial
        case storeError => trivial
        case duplicate => trivial
        case empty => trivial
        case forwarded => exact absurd ho hout
        case rolledBack => trivial
      · exact holdsRow_delete _ _ t rid q hq hridq
      · intro i hi
        simp only [phaseRid] at hi
        cases hi
        simpa [tableDelete] using hbp rid rfl
      · intro i hi
        simpa [tableDelete] using hbq i hi
      · intro i j hi hj
        simp only [phaseRid] at hi
        cases hi
        exact fun hcon => (hridq j hj) hcon.symm
      · cases ho : res.outcome
        case duplicate => exact absurd ho hspec.2.1
        all_goals trivial
    | false =>
      simp only [Bool.false_eq_true, reduceIte]
      refine ⟨hwf, ?_, hq, ?_, hbq, ?_, ?_, hdq⟩
      · cases ho : res.outcome
        case forwarded =>
          obtain ⟨r, hr, h1, h2, h3⟩ := hp
          exact ⟨rid, rfl, r, hr, h1, h2, h3⟩
        all_goals trivial
      · intro i hi
        simp only [phaseRid] at hi
        cases hi
        exact hbp rid rfl
      · intro i j hi hj
        simp only [phaseRid] at hi
        cases hi
        exact fun hcon => (hridq j hj) hcon.symm
      · cases ho : res.outcome
        case duplicate => exact absurd ho hspec.2.1
        all_goals trivial

/-- Every reachable configuration of two racing runs with the same key and
bucket satisfies the race invariant. -/
theorem raceInv_reach (ra rb : RunSpec) (t0 : Table) (c : CConf)
    (hk : runKey rb = runKey ra) (hb : rb.bucket = ra.bucket)
    (hwf : tableWF t0) (hreach : CReach ra rb t0 c) :
    RaceInv (runKey ra) ra.bucket c := by
  induction hreach with
  | refl =>
    exact ⟨hwf, trivial, trivial, by simp [phaseRid], by simp [phaseRid],
      by simp [phaseRid], trivial, trivial⟩
  | tail hsteps hstep ih =>
    obtain ⟨iwf, ipa, ipb, iba, ibb, ine, ida, idb⟩ := ih
    cases hstep with
    | stepA t pa pb h =>
      have hrs := raceInv_runStep ra t pa pb iwf ipa ipb iba ibb ine ida idb
      exact ⟨hrs.1, hrs.2.1, hrs.2.2.1, hrs.2.2.2.1, hrs.2.2.2.2.1,
        hrs.2.2.2.2.2.1, hrs.2.2.2.2.2.2.1, hrs.2.2.2.2.2.2.2⟩
    | stepB t pa pb h =>
      rw [← hk, ← hb] at ipa ipb
      have hne' : ∀ i j, phaseRid pb = some i → phaseRid pa = some j → i ≠ j :=
        fun i j hi hj => (ine j i hj hi).symm
      have hrs := raceInv_runStep rb t pb pa iwf ipb ipa ibb iba hne' idb ida
      rw [hk, hb] at hrs
      exact ⟨hrs.1, hrs.2.2.1, hrs.2.1, hrs.2.2.2.2.1, hrs.2.2.2.1,
        fun i j hi hj => (hrs.2.2.2.2.2.1 j i hj hi).symm,
        hrs.2.2.2.2.2.2.2, hrs.2.2.2.2.2.2.1⟩

/-- Consequence of the race invariant: the two runs cannot both have
finished FORWARDED. -/
theorem raceInv_not_both_forwarded (k b : String) (c : CConf) (hinv : RaceInv k b c)
    (ia : Option Nat) (sa : Nat) (ib : Option Nat) (sb : Nat)
    (ha : c.pa = .done .forwarded ia sa) (hb : c.pb = .done .forwarded ib sb) :
    False := by
  obtain ⟨⟨hid, huniq⟩, hpa, hpb, hba, hbb, hne, _, _⟩ := hinv
  rw [ha] at hpa
  rw [hb] at hpb
  obtain ⟨i, hi, r1, hr1, e1, e2, e3⟩ := hpa
  obtain ⟨j, hj, r2, hr2, f1, f2, f3⟩ := hpb
  have hnij : i ≠ j := hne i j (by simp [ha, phaseRid, hi]) (by simp [hb, phaseRid, hj])
  have hr12 : r1 = r2 := huniq r1 hr1 r2 hr2 (by rw [e2, f2]) (by rw [e3, f3])
  exact hnij (by rw [← e1, ← f1, hr12])

/-- Consequence of the race invariant: a FORWARDED first run has left its
row in the table, so the `(key, bucket)` pair is occupied. -/
theorem raceInv_forwarded_hasKB (k b : String) (c : CConf) (hinv : RaceInv k b c)
    (rid : Option Nat) (s : Nat) (ha : c.pa = .done .forwarded rid s) :
    hasKB c.table k b = true := by
  obtain ⟨_, hpa, _⟩ := hinv
  rw [ha] at hpa
  obtain ⟨i, hi, r, hr, e1, e2, e3⟩ := hpa
  unfold hasKB
  exact List.any_eq_true.mpr ⟨r, hr, by simp [e2, e3]⟩

/-- C1: for two runs deriving equal keys in the same bucket, in every
reachable configuration at most one run has finished FORWARDED; a run that
finished DUPLICATE reserved nothing and attempted no send; and a delivered
insert hitting the occupied `(key, bucket)` pair deterministically ends that
run as DUPLICATE with no relay attempt, whatever the interleaving. -/
theorem C1_at_most_one_forwarded (ra rb : RunSpec) (t0 : Table) (c : CConf)
    (hk : runKey rb = runKey ra) (hbk : rb.bucket = ra.bucket)
    (hwf : tableWF t0) (hreach : CReach ra rb t0 c) :
    (∀ ia sa ib sb, c.pa = .done .forwarded ia sa → c.pb = .done .forwarded ib sb → False) ∧
    (∀ i s, c.pa = .done .duplicate i s → i = none ∧ s = 0) ∧
    (∀ i s, c.pb = .done .duplicate i s → i = none ∧ s = 0) ∧
    (∀ t, ra.insertFault = none → hasKB t (runKey ra) ra.bucket = true →
      runStep ra t .start = (t, .done .duplicate none 0)) ∧
    (∀ t, rb.insertFault = none → hasKB t (runKey rb) rb.bucket = true →
      runStep rb t .start = (t, .done .duplicate none 0)) := by
  have hinv := raceInv_reach ra rb t0 c hk hbk hwf hreach
  refine ⟨?_, ?_, ?_, ?_, ?_⟩
  · intro ia sa ib sb ha hb
    exact raceInv_not_both_forwarded _ _ c hinv ia sa ib sb ha hb
  · intro i s h
    have := hinv.2.2.2.2.2.2.1
    rw [h] at this
    exact this
  · intro i s h
    have := hinv.2.2.2.2.2.2.2
    rw [h] at this
    exact this
  · intro t hf hKB
    exact insStep_hit ra t hf hKB
  · intro t hf hKB
    exact insStep_hit rb t hf hKB

/-! ### Concrete race fixtures (same product URL from two origins) -/

/-- First witness message: a product URL posted in origin 1. -/
def wMsgA : Msg := ⟨1, 10, some "https://a.co/dp/B0ABCDEFGH", false, none⟩

/-- Second witness message: the same product URL posted in origin 2. -/
def wMsgB : Msg := ⟨2, 20, some "https://a.co/dp/B0ABCDEFGH", false, none⟩

/-- Benign transport behaviour: every call succeeds. -/
def wNet : NetEnv := ⟨.ok, .ok, true, true⟩

/-- First witness run. -/
def wRunA : RunSpec := ⟨wMsgA, "2025-10-12", "chanA", none, wNet⟩

/-- Second witness run, same bucket. -/
def wRunB : RunSpec := ⟨wMsgB, "2025-10-12", "chanB", none, wNet⟩

/-- Empty initial table. -/
def wT0 : Table := ⟨[], 0⟩

/-- Table after run A's reservation. -/
def wT1 : Table := (tableInsert wT0 (runKey wRunA) "2025-10-12" (insName wRunA) "chanA").2

/-- Final configuration of the witness trace: A forwarded, B duplicate. -/
def wFinal : CConf := ⟨wT1, .done .forwarded (some 0) 1, .done .duplicate none 0⟩

/-- The witness trace: A reserves, A forwards, then B's insert hits the
constraint and B exits as a duplicate. -/
theorem wReach : CReach wRunA wRunB wT0 wFinal := by
  have s1 : CStep wRunA wRunB ⟨wT0, .start, .start⟩ ⟨wT1, .reserved 0, .start⟩ :=
    CStep.stepA wT0 .start .start rfl
  have s2 : CStep wRunA wRunB ⟨wT1, .reserved 0, .start⟩
      ⟨wT1, .done .forwarded (some 0) 1, .start⟩ :=
    CStep.stepA wT1 (.reserved 0) .start rfl
  have s3 : CStep wRunA wRunB ⟨wT1, .done .forwarded (some 0) 1, .start⟩ wFinal :=
    CStep.stepB wT1 (.done .forwarded (some 0) 1) .start rfl
  exact Relation.ReflTransGen.tail
    (Relation.ReflTransGen.tail (Relation.ReflTransGen.single s1) s2) s3

/-- Witness for C1: on the concrete trace the hypotheses hold and the
conclusions apply — B finished DUPLICATE with nothing reserved and no send,
and the two runs did not both forward. -/
theorem C1_at_most_one_forwarded_witness :
    runKey wRunB = runKey wRunA ∧ tableWF wT0 ∧
    (∀ ia sa ib sb, wFinal.pa = .done .forwarded ia sa →
      wFinal.pb = .done .forwarded ib sb → False) ∧
    (∀ i s, wFinal.pb = .done .duplicate i s → i = none ∧ s = 0) :=
  ⟨by decide, ⟨by simp [wT0], by simp [wT0]⟩,
   (C1_at_most_one_forwarded wRunA wRunB wT0 wFinal (by decide) rfl
     ⟨by simp [wT0], by simp [wT0]⟩ wReach).1,
   (C1_at_most_one_forwarded wRunA wRunB wT0 wFinal (by decide) rfl
     ⟨by simp [wT0], by simp [wT0]⟩ wReach).2.2.1⟩

/-! ### Reduction equations for the sequential runs -/

/-- The key the single handler derives for a message. -/
def msgKey (msg : Msg) : String :=
  singleKey (msg.text.getD "") msg.hasMedia msg.chatId msg.msgId

/-- A relay is considered failed when the first send errors out, or the
first send is rate-limited and the retry does not succeed. -/
def relayFails (e : NetEnv) : Prop :=
  e.send1 = .err ∨ (∃ s, e.send1 = .floodWait s ∧ e.send2 ≠ .ok)

/-- Run equation: a non-grouped message whose insert is delivered enters the
forward / rollback section. -/
theorem runSingle_reserved (msg : Msg) (env : Env) (rid : Option Nat)
    (hg : msg.groupedId = none) (hi : env.insertResp = .data rid) :
    runSingle msg env =
      { postReserveSingle msg.hasMedia (msg.text.getD "") rid env.toNetEnv with
        key := some (msgKey msg), insertAttempts := 1 } := by
  simp [runSingle, hg, hi, db_try_insert, msgKey]

/-- Run equation: a non-grouped message whose insert raises an `APIError`
without `23505` aborts as a store error. -/
theorem runSingle_storeError (msg : Msg) (env : Env) (m : String)
    (hg : msg.groupedId = none) (hi : env.insertResp = .apiError m)
    (hc : strContains m "23505" = false) :
    runSingle msg env = baseRun .storeError (some (msgKey msg)) 1 := by
  simp [runSingle, hg, hi, db_try_insert, hc, msgKey]

/-- Run equation: a non-grouped message whose insert raises an `APIError`
containing `23505` is skipped as a duplicate. -/
theorem runSingle_dup (msg : Msg) (env : Env) (m : String)
    (hg : msg.groupedId = none) (hi : env.insertResp = .apiError m)
    (hc : strContains m "23505" = true) :
    runSingle msg env = baseRun .duplicate (some (msgKey msg)) 1 := by
  simp [runSingle, hg, hi, db_try_insert, hc, msgKey]

/-- Run equation: an album whose insert is delivered and whose forward makes
a transport call runs the send-with-retry flow. -/
theorem runAlbum_reserved_send (msgs : List AMsg) (env : Env) (rid : Option Nat)
    (hi : env.insertResp = .data rid) (hk : albumSendKind msgs ≠ .silent) :
    runAlbum msgs env =
      { sendFlow rid.isSome env.toNetEnv with
        key := some (albumKey (albumAllText msgs)), insertAttempts := 1 } := by
  cases h : albumSendKind msgs with
  | silent => exact absurd h hk
  | group => simp [runAlbum, hi, db_try_insert, h]
  | textOnly c => simp [runAlbum, hi, db_try_insert, h]

/-- Run equation: an album whose insert is delivered but whose forward makes
no transport call at all still ends FORWARDED, releasing nothing. -/
theorem runAlbum_reserved_silent (msgs : List AMsg) (env : Env) (rid : Option Nat)
    (hi : env.insertResp = .data rid) (hk : albumSendKind msgs = .silent) :
    runAlbum msgs env = baseRun .forwarded (some (albumKey (albumAllText msgs))) 1 := by
  simp [runAlbum, hi, db_try_insert, hk]

/-- Run equation: an album whose insert raises an `APIError` without `23505`
aborts as a store error. -/
theorem runAlbum_storeError (msgs : List AMsg) (env : Env) (m : String)
    (hi : env.insertResp = .apiError m) (hc : strContains m "23505" = false) :
    runAlbum msgs env = baseRun .storeError (some (albumKey (albumAllText msgs))) 1 := by
  simp [runAlbum, hi, db_try_insert, hc]

/-- Facts about the send-with-retry flow: at most two attempts, at most one
delivery, outcome FORWARDED or ROLLED-BACK, rollback releases once when a
row id is known, and a FloodWait on the first attempt sleeps the reported
seconds plus one and is followed by exactly one retry. -/
theorem sendFlow_spec (hr : Bool) (e : NetEnv) :
    (sendFlow hr e).sendAttempts ≤ 2 ∧ (sendFlow hr e).delivered ≤ 1 ∧
    ((sendFlow hr e).outcome = .forwarded ∨ (sendFlow hr e).outcome = .rolledBack) ∧
    (relayFails e → (sendFlow hr e).outcome = .rolledBack ∧
      (sendFlow hr e).delivered = 0 ∧
      (sendFlow hr e).releaseAttempts = if hr then 1 else 0) ∧
    (∀ s, e.send1 = .floodWait s →
      (sendFlow hr e).sleeps = [s + 1] ∧ (sendFlow hr e).sendAttempts = 2 ∧
      (e.send2 = .ok → (sendFlow hr e).outcome = .forwarded) ∧
      (e.send2 ≠ .ok → (sendFlow hr e).outcome = .rolledBack)) := by
  rcases e with ⟨s1, s2, r1, r2⟩
  cases s1 <;> cases s2 <;> simp [sendFlow, relayFails]

/-- Projection of the handler's record update: the outcome is the one of the
forward / rollback section. -/
theorem upd_outcome (r : RunResult) (k : Option String) (n : Nat) :
    ({ r with key := k, insertAttempts := n } : RunResult).outcome = r.outcome := rfl

/-- Projection of the handler's record update: send attempts. -/
theorem upd_sendAttempts (r : RunResult) (k : Option String) (n : Nat) :
    ({ r with key := k, insertAttempts := n } : RunResult).sendAttempts = r.sendAttempts := rfl

/-- Projection of the handler's record update: deliveries. -/
theorem upd_delivered (r : RunResult) (k : Option String) (n : Nat) :
    ({ r with key := k, insertAttempts := n } : RunResult).delivered = r.delivered := rfl

/-- Projection of the handler's record update: sleeps. -/
theorem upd_sleeps (r : RunResult) (k : Option String) (n : Nat) :
    ({ r with key := k, insertAttempts := n } : RunResult).sleeps = r.sleeps := rfl

/-- Projection of the handler's record update: release attempts. -/
theorem upd_releaseAttempts (r : RunResult) (k : Option String) (n : Nat) :
    ({ r with key := k, insertAttempts := n } : RunResult).releaseAttempts =
      r.releaseAttempts := rfl

/-- Projection of the handler's record update: the empty-skip log flag. -/
theorem upd_emptyLogged (r : RunResult) (k : Option String) (n : Nat) :
    ({ r with key := k, insertAttempts := n } : RunResult).emptyLogged = r.emptyLogged := rfl

/-- The forward / rollback section of a message that is sent (media present
or non-blank text) is the send-with-retry flow. -/
theorem postReserveSingle_send (msg : Msg) (rid : Option Nat) (e : NetEnv)
    (hsend : msg.hasMedia = true ∨ pyStrip (msg.text.getD "") ≠ "") :
    postReserveSingle msg.hasMedia (msg.text.getD "") rid e = sendFlow rid.isSome e := by
  rcases hsend with hm | ht
  · simp [postReserveSingle, hm]
  · cases hm : msg.hasMedia
    · simp [postReserveSingle, hm, ht]
    · simp [postReserveSingle, hm]

/-- C2: whenever the reservation insert succeeded (yielding a row id) and
the relay failed — a first-attempt error, or a rate limit whose single retry
did not succeed — both handlers attempt the rollback release exactly once
and end ROLLED-BACK with nothing delivered; the statement holds for every
transport behaviour of the release calls, so a failing release changes
nothing. -/
theorem C2_release_after_relay_failure (msg : Msg) (env : Env) (msgs : List AMsg)
    (rid : Nat) (hg : msg.groupedId = none) (hi : env.insertResp = .data (some rid))
    (hsend : msg.hasMedia = true ∨ pyStrip (msg.text.getD "") ≠ "")
    (hkind : albumSendKind msgs ≠ .silent)
    (hfail : relayFails env.toNetEnv) :
    (runSingle msg env).outcome = .rolledBack ∧
    (runSingle msg env).releaseAttempts = 1 ∧
    (runSingle msg env).delivered = 0 ∧
    (runAlbum msgs env).outcome = .rolledBack ∧
    (runAlbum msgs env).releaseAttempts = 1 ∧
    (runAlbum msgs env).delivered = 0 := by
  have hsf := (sendFlow_spec true env.toNetEnv).2.2.2.1 hfail
  have h1 := runSingle_reserved msg env (some rid) hg hi
  rw [postReserveSingle_send msg (some rid) env.toNetEnv hsend] at h1
  have h2 := runAlbum_reserved_send msgs env (some rid) hi hkind
  rw [h1, h2]
  simp only [upd_outcome, upd_releaseAttempts, upd_delivered, Option.isSome_some]
  exact ⟨hsf.1, by simpa using hsf.2.2, hsf.2.1, hsf.1, by simpa using hsf.2.2, hsf.2.1⟩

/-- C2 witness: a concrete run whose first send errors: the reservation is
released and the run is ROLLED-BACK, with the release itself failing. -/
theorem C2_release_after_relay_failure_witness :
    (runSingle ⟨1, 5, some "big deal", false, none⟩
        ⟨⟨.err, .ok, false, false⟩, .data (some 3)⟩).outcome = .rolledBack ∧
    (runSingle ⟨1, 5, some "big deal", false, none⟩
        ⟨⟨.err, .ok, false, false⟩, .data (some 3)⟩).releaseAttempts = 1 :=
  ⟨(C2_release_after_relay_failure ⟨1, 5, some "big deal", false, none⟩
      ⟨⟨.err, .ok, false, false⟩, .data (some 3)⟩ [⟨none, true⟩] 3 rfl rfl
      (Or.inr (by decide)) (by decide) (Or.inl rfl)).1,
   (C2_release_after_relay_failure ⟨1, 5, some "big deal", false, none⟩
      ⟨⟨.err, .ok, false, false⟩, .data (some 3)⟩ [⟨none, true⟩] 3 rfl rfl
      (Or.inr (by decide)) (by decide) (Or.inl rfl)).2.1⟩

/-- C3: when the first relay attempt hits a FloodWait of `s` seconds, both
handlers sleep `s + 1` seconds and retry exactly once — a successful retry
forwards, any failing retry rolls back — and no run of either handler ever
makes more than two send attempts. -/
theorem C3_floodwait_single_retry :
    (∀ msg env rid s, msg.groupedId = none → env.insertResp = .data rid →
      (msg.hasMedia = true ∨ pyStrip (msg.text.getD "") ≠ "") →
      env.send1 = .floodWait s →
      (runSingle msg env).sleeps = [s + 1] ∧ (runSingle msg env).sendAttempts = 2 ∧
      (env.send2 = .ok → (runSingle msg env).outcome = .forwarded) ∧
      (env.send2 ≠ .ok → (runSingle msg env).outcome = .rolledBack)) ∧
    (∀ msg env, (runSingle msg env).sendAttempts ≤ 2) ∧
    (∀ msgs env rid s, env.insertResp = .data rid → albumSendKind msgs ≠ .silent →
      env.send1 = .floodWait s →
      (runAlbum msgs env).sleeps = [s + 1] ∧ (runAlbum msgs env).sendAttempts = 2 ∧
      (env.send2 = .ok → (runAlbum msgs env).outcome = .forwarded) ∧
      (env.send2 ≠ .ok → (runAlbum msgs env).outcome = .rolledBack)) ∧
    (∀ msgs env, (runAlbum msgs env).sendAttempts ≤ 2) := by
  refine ⟨?_, ?_, ?_, ?_⟩
  · intro msg env rid s hg hi hsend h1
    have hfw := (sendFlow_spec rid.isSome env.toNetEnv).2.2.2.2 s h1
    have he := runSingle_reserved msg env rid hg hi
    rw [postReserveSingle_send msg rid env.toNetEnv hsend] at he
    rw [he]
    simp only [upd_sleeps, upd_sendAttempts, upd_outcome]
    exact hfw
  · intro msg env
    cases hge : msg.groupedId with
    | some g => simp [runSingle, hge, baseRun]
    | none =>
      cases hi : env.insertResp with
      | data rid =>
        rw [runSingle_reserved msg env rid hge hi]
        simpa only [upd_sendAttempts] using
          (postReserveSingle_spec msg.hasMedia (msg.text.getD "") rid env.toNetEnv).2.2.2.2.1
      | apiError m =>
        cases hc : strContains m "23505" with
        | false => rw [runSingle_storeError msg env m hge hi hc]; simp [baseRun]
        | true => rw [runSingle_dup msg env m hge hi hc]; simp [baseRun]
  · intro msgs env rid s hi hkind h1
    have hfw := (sendFlow_spec rid.isSome env.toNetEnv).2.2.2.2 s h1
    rw [runAlbum_reserved_send msgs env rid hi hkind]
    simp only [upd_sleeps, upd_sendAttempts, upd_outcome]
    exact hfw
  · intro msgs env
    cases hi : env.insertResp with
    | data rid =>
      cases hkind : albumSendKind msgs with
      | silent => rw [runAlbum_reserved_silent msgs env rid hi hkind]; simp [baseRun]
      | group =>
        rw [runAlbum_reserved_send msgs env rid hi (by simp [hkind])]
        simpa only [upd_sendAttempts] using (sendFlow_spec rid.isSome env.toNetEnv).1
      | textOnly c =>
        rw [runAlbum_reserved_send msgs env rid hi (by simp [hkind])]
        simpa only [upd_sendAttempts] using (sendFlow_spec rid.isSome env.toNetEnv).1
    | apiError m =>
      cases hc : strContains m "23505" with
      | false => rw [runAlbum_storeError msgs env m hi hc]; simp [baseRun]
      | true => simp [runAlbum, hi, db_try_insert, hc, baseRun]

/-- C3 witness: a concrete FloodWait of 7 seconds sleeps 8 seconds, retries
once, and a second FloodWait ends the run ROLLED-BACK. -/
theorem C3_floodwait_single_retry_witness :
    (runSingle ⟨1, 6, some "hot deal", true, none⟩
        ⟨⟨.floodWait 7, .floodWait 9, true, true⟩, .data (some 4)⟩).sleeps = [8] ∧
    (runSingle ⟨1, 6, some "hot deal", true, none⟩
        ⟨⟨.floodWait 7, .floodWait 9, true, true⟩, .data (some 4)⟩).sendAttempts = 2 ∧
    (runSingle ⟨1, 6, some "hot deal", true, none⟩
        ⟨⟨.floodWait 7, .floodWait 9, true, true⟩, .data (some 4)⟩).outcome = .rolledBack := by
  have h := C3_floodwait_single_retry.1 ⟨1, 6, some "hot deal", true, none⟩
    ⟨⟨.floodWait 7, .floodWait 9, true, true⟩, .data (some 4)⟩ (some 4) 7
    rfl rfl (Or.inl rfl) rfl
  exact ⟨h.1, h.2.1, h.2.2.2 (by decide)⟩

/-- C4 (amended): `tryReserve` yields `(False, None)` exactly when the
insert's `APIError` text contains `23505` — which the store's genuine
uniqueness-violation error does — while every other `APIError` is re-raised;
and on a propagated store error both handlers end the run having attempted
no send and no release. -/
theorem C4_duplicate_signal_and_store_error :
    (∀ m, db_try_insert (.apiError m) = Except.ok (false, none) ↔
      strContains m "23505" = true) ∧
    db_try_insert (.apiError uniqueViolationMsg) = Except.ok (false, none) ∧
    (∀ rid, db_try_insert (.data rid) = Except.ok (true, rid)) ∧
    (∀ m, strContains m "23505" = false → db_try_insert (.apiError m) = Except.error m) ∧
    (∀ msg env m, msg.groupedId = none → env.insertResp = .apiError m →
      strContains m "23505" = false →
      runSingle msg env = baseRun .storeError (some (msgKey msg)) 1) ∧
    (∀ msgs env m, env.insertResp = .apiError m → strContains m "23505" = false →
      runAlbum msgs env = baseRun .storeError (some (albumKey (albumAllText msgs))) 1) := by
  refine ⟨?_, rfl, fun rid => rfl, ?_, ?_, ?_⟩
  · intro m
    cases hc : strContains m "23505" <;> simp [db_try_insert, hc]
  · intro m hc
    simp [db_try_insert, hc]
  · intro msg env m hg hi hc
    exact runSingle_storeError msg env m hg hi hc
  · intro msgs env m hi hc
    exact runAlbum_storeError msgs env m hi hc

/-- C4 witness: a transport-style error message without `23505` propagates,
and the run for a concrete message ends as a store error with no send and
no release. -/
theorem C4_duplicate_signal_and_store_error_witness :
    db_try_insert (.apiError "connection reset by peer") =
      Except.error "connection reset by peer" ∧
    runSingle ⟨9, 2, some "sale", false, none⟩
        ⟨⟨.ok, .ok, true, true⟩, .apiError "connection reset by peer"⟩ =
      baseRun .storeError (some (msgKey ⟨9, 2, some "sale", false, none⟩)) 1 :=
  ⟨C4_duplicate_signal_and_store_error.2.2.2.1 "connection reset by peer" (by decide),
   C4_duplicate_signal_and_store_error.2.2.2.2.1 ⟨9, 2, some "sale", false, none⟩
     ⟨⟨.ok, .ok, true, true⟩, .apiError "connection reset by peer"⟩
     "connection reset by peer" rfl rfl (by decide)⟩

/-- C4 counterexample: an `APIError` that is not the store's
uniqueness-violation error but happens to contain `23505` in its text is
still translated to `(False, None)` instead of propagating, so the
"exactly when the insert fails with the uniqueness-constraint violation"
reading is false. -/
theorem C4_counterexample :
    db_try_insert (.apiError "network timeout while inserting; request id 23505771") =
      Except.ok (false, none) ∧
    "network timeout while inserting; request id 23505771" ≠ uniqueViolationMsg ∧
    db_try_insert (.apiError "network timeout while inserting; request id 23505771") ≠
      Except.error "network timeout while inserting; request id 23505771" := by
  refine ⟨rfl, by decide, fun h => ?_⟩
  rw [show db_try_insert (.apiError "network timeout while inserting; request id 23505771") =
    Except.ok (false, none) from rfl] at h
  exact Except.noConfusion h

/-- C9: any insert `APIError` whose text contains the substring `23505`
anywhere — whether or not it is the store's uniqueness-violation error — is
translated by `_db_try_insert_sync` to `(False, None)`, making the handler
log a duplicate and never relay; only messages without that substring
propagate as store errors. -/
theorem C9_any_23505_text_reads_as_duplicate :
    (∀ m, strContains m "23505" = true →
      db_try_insert (.apiError m) = Except.ok (false, none)) ∧
    (∀ m, strContains m "23505" = false →
      db_try_insert (.apiError m) = Except.error m) ∧
    (∀ msg env m, msg.groupedId = none → env.insertResp = .apiError m →
      strContains m "23505" = true →
      runSingle msg env = baseRun .duplicate (some (msgKey msg)) 1) := by
  refine ⟨?_, ?_, ?_⟩
  · intro m h
    simp [db_try_insert, h]
  · intro m h
    simp [db_try_insert, h]
  · intro msg env m hg hi hc
    exact runSingle_dup msg env m hg hi hc

/-- C9 witness: a non-violation error text containing `23505` makes a
concrete run report DUPLICATE (no send, no release, nothing delivered). -/
theorem C9_any_23505_text_reads_as_duplicate_witness :
    runSingle ⟨4, 8, some "deal of the day", false, none⟩
        ⟨⟨.ok, .ok, true, true⟩, .apiError "serialization failure near value 235050"⟩ =
      baseRun .duplicate (some (msgKey ⟨4, 8, some "deal of the day", false, none⟩)) 1 :=
  C9_any_23505_text_reads_as_duplicate.2.2 ⟨4, 8, some "deal of the day", false, none⟩
    ⟨⟨.ok, .ok, true, true⟩, .apiError "serialization failure near value 235050"⟩
    "serialization failure near value 235050" rfl rfl (by decide)

/-- C10: a message carrying a `grouped_id` makes the single-message handler
return at once — it is never keyed, never reserved, never sent — while one
album run derives exactly one group key, makes exactly one reservation
attempt, and delivers at most one grouped send (with at most the two
attempts of the retry policy). -/
theorem C10_grouped_messages_only_album (msg : Msg) (env : Env) (g : Nat)
    (msgs : List AMsg) (envA : Env) (hg : msg.groupedId = some g) :
    runSingle msg env = baseRun .ignored none 0 ∧
    (runAlbum msgs envA).key = some (albumKey (albumAllText msgs)) ∧
    (runAlbum msgs envA).insertAttempts = 1 ∧
    (runAlbum msgs envA).sendAttempts ≤ 2 ∧
    (runAlbum msgs envA).delivered ≤ 1 := by
  refine ⟨by simp [runSingle, hg], ?_⟩
  cases hi : envA.insertResp with
  | data rid =>
    cases hkind : albumSendKind msgs with
    | silent => rw [runAlbum_reserved_silent msgs envA rid hi hkind]; simp [baseRun]
    | group =>
      rw [runAlbum_reserved_send msgs envA rid hi (by simp [hkind])]
      have hsf := sendFlow_spec rid.isSome envA.toNetEnv
      exact ⟨rfl, rfl, by simpa only [upd_sendAttempts] using hsf.1,
        by simpa only [upd_delivered] using hsf.2.1⟩
    | textOnly c =>
      rw [runAlbum_reserved_send msgs envA rid hi (by simp [hkind])]
      have hsf := sendFlow_spec rid.isSome envA.toNetEnv
      exact ⟨rfl, rfl, by simpa only [upd_sendAttempts] using hsf.1,
        by simpa only [upd_delivered] using hsf.2.1⟩
  | apiError m =>
    cases hc : strContains m "23505" with
    | false => rw [runAlbum_storeError msgs envA m hi hc]; simp [baseRun]
    | true => simp [runAlbum, hi, db_try_insert, hc, baseRun]

/-- C10 witness: a concrete grouped message is ignored by the single
handler, and a concrete two-member album makes one reservation attempt and
one delivery. -/
theorem C10_grouped_messages_only_album_witness :
    runSingle ⟨1, 3, some "part of album", true, some 99⟩
        ⟨⟨.ok, .ok, true, true⟩, .data (some 11)⟩ = baseRun .ignored none 0 ∧
    (runAlbum [⟨some "caption", true⟩, ⟨none, true⟩]
        ⟨⟨.ok, .ok, true, true⟩, .data (some 12)⟩).insertAttempts = 1 :=
  ⟨(C10_grouped_messages_only_album ⟨1, 3, some "part of album", true, some 99⟩
      ⟨⟨.ok, .ok, true, true⟩, .data (some 11)⟩ 99
      [⟨some "caption", true⟩, ⟨none, true⟩]
      ⟨⟨.ok, .ok, true, true⟩, .data (some 12)⟩ rfl).1,
   (C10_grouped_messages_only_album ⟨1, 3, some "part of album", true, some 99⟩
      ⟨⟨.ok, .ok, true, true⟩, .data (some 11)⟩ 99
      [⟨some "caption", true⟩, ⟨none, true⟩]
      ⟨⟨.ok, .ok, true, true⟩, .data (some 12)⟩ rfl).2.2.1⟩

set_option maxRecDepth 400000

/-- C5 (amended): a product key extracted from a URL in the body always
takes precedence over the text-hash fallback, and the scenario body derives
the key `amazon_B0ABCDEFGH`. -/
theorem C5_url_key_precedence :
    (∀ text hasMedia cid mid k,
      firstProductKey (extract_urls text) = some k →
      singleKey text hasMedia cid mid = k) ∧
    (∀ hasMedia cid mid,
      singleKey "Check this: https://shop.example.com/dp/B0ABCDEFGH deal!" hasMedia cid mid =
        "amazon_B0ABCDEFGH") := by
  constructor
  · intro text hasMedia cid mid k h
    simp [singleKey, h]
  · intro hasMedia cid mid
    rfl

/-- C5 witness: the scenario body's URL yields the product key, and the
derived key is the URL key, not a hash of the caption. -/
theorem C5_url_key_precedence_witness :
    firstProductKey
        (extract_urls "Check this: https://shop.example.com/dp/B0ABCDEFGH deal!") =
      some "amazon_B0ABCDEFGH" ∧
    singleKey "Check this: https://shop.example.com/dp/B0ABCDEFGH deal!" false 1 1 =
      "amazon_B0ABCDEFGH" :=
  ⟨by decide,
   C5_url_key_precedence.1 "Check this: https://shop.example.com/dp/B0ABCDEFGH deal!"
     false 1 1 "amazon_B0ABCDEFGH" (by decide)⟩

/-- C5 counterexample: the code derives `amazon_B0ABCDEFGH` for the scenario
body, not the key `source:amazonlike_B0ABCDEFGH` stated by the claim. -/
theorem C5_counterexample :
    singleKey "Check this: https://shop.example.com/dp/B0ABCDEFGH deal!" false 1 1 =
      "amazon_B0ABCDEFGH" ∧
    singleKey "Check this: https://shop.example.com/dp/B0ABCDEFGH deal!" false 1 1 ≠
      "source:amazonlike_B0ABCDEFGH" :=
  ⟨by decide, by decide⟩

/-- C6 (amended): for every body with no recognizable product URL, outside
the media-only substitution case, the key is `text_` followed by the SHA-256
of the normalized body; `"50% off today only"` normalizes to
`"50 off today only"`; differently punctuated casings of the same text
derive identical keys; and a second run over an equal key in the same bucket
exits as DUPLICATE once the first has forwarded. -/
theorem C6_text_hash_fallback :
    (∀ text hasMedia cid mid,
      firstProductKey (extract_urls text) = none →
      (hasMedia = false ∨ normalize_text text ≠ "") →
      singleKey text hasMedia cid mid = "text_" ++ text_hash (normalize_text text)) ∧
    (∀ cid mid, singleKey "50% off today only" false cid mid =
      "text_" ++ text_hash "50 off today only") ∧
    normalize_text "50% off today only" = "50 off today only" ∧
    (∀ c1 m1 c2 m2,
      singleKey "Great Deal!!" false c1 m1 = singleKey "great deal" false c2 m2) ∧
    (∀ ra rb t0 c rid s,
      runKey rb = runKey ra → rb.bucket = ra.bucket →
      tableWF t0 → CReach ra rb t0 c →
      c.pa = .done .forwarded rid s → c.pb = .start → rb.insertFault = none →
      CStep ra rb c ⟨c.table, c.pa, .done .duplicate none 0⟩) := by
  refine ⟨?_, fun cid mid => rfl, by decide, fun c1 m1 c2 m2 => rfl, ?_⟩
  · intro text hasMedia cid mid hurl hcase
    rcases hcase with hm | ht
    · simp [singleKey, hurl, hm]
    · simp [singleKey, hurl, ht]
  intro ra rb t0 c rid s hk hbk hwf hreach hfa hpb hfault
  have hinv := raceInv_reach ra rb t0 c hk hbk hwf hreach
  have hKB : hasKB c.table (runKey ra) ra.bucket = true :=
    raceInv_forwarded_hasKB (runKey ra) ra.bucket c hinv rid s hfa
  rw [← hk, ← hbk] at hKB
  obtain ⟨tb, pa, pb⟩ := c
  simp only at hfa hpb hKB
  subst hpb
  have hstep : runStep rb tb .start = (tb, .done .duplicate none 0) :=
    insStep_hit rb tb hfault hKB
  have hs := @CStep.stepB ra rb tb pa .start rfl
  rw [hstep] at hs
  exact hs

/-- Witness run for C6: `"Great Deal!!"` posted in origin 3. -/
def wgRunA : RunSpec := ⟨⟨3, 30, some "Great Deal!!", false, none⟩, "2025-10-12", "chA", none, wNet⟩

/-- Witness run for C6: `"great deal"` posted in origin 5, same bucket. -/
def wgRunB : RunSpec := ⟨⟨5, 50, some "great deal", false, none⟩, "2025-10-12", "chB", none, wNet⟩

/-- Table after the first C6 witness run reserved its key. -/
def wgT1 : Table := (tableInsert wT0 (runKey wgRunA) "2025-10-12" (insName wgRunA) "chA").2

/-- Configuration after the first C6 witness run forwarded. -/
def wgConf : CConf := ⟨wgT1, .done .forwarded (some 0) 1, .start⟩

/-- The C6 witness trace: A reserves, then A forwards. -/
theorem wgReach : CReach wgRunA wgRunB wT0 wgConf := by
  have s1 : CStep wgRunA wgRunB ⟨wT0, .start, .start⟩ ⟨wgT1, .reserved 0, .start⟩ :=
    CStep.stepA wT0 .start .start rfl
  have s2 : CStep wgRunA wgRunB ⟨wgT1, .reserved 0, .start⟩ wgConf :=
    CStep.stepA wgT1 (.reserved 0) .start rfl
  exact Relation.ReflTransGen.tail (Relation.ReflTransGen.single s1) s2

/-- C6 witness: the universal keying rule applies to the concrete no-URL
body, the differently-punctuated bodies derive one key, and after the first
run forwarded, the second run's next step is a DUPLICATE exit. -/
theorem C6_text_hash_fallback_witness :
    singleKey "50% off today only" false 7 9 =
      "text_" ++ text_hash (normalize_text "50% off today only") ∧
    runKey wgRunB = runKey wgRunA ∧
    CStep wgRunA wgRunB wgConf ⟨wgConf.table, wgConf.pa, .done .duplicate none 0⟩ :=
  have hk : runKey wgRunB = runKey wgRunA := (C6_text_hash_fallback.2.2.2.1 3 30 5 50).symm
  ⟨C6_text_hash_fallback.1 "50% off today only" false 7 9 (by decide) (Or.inl rfl),
   hk, C6_text_hash_fallback.2.2.2.2 wgRunA wgRunB wT0 wgConf (some 0) 1 hk rfl
    ⟨by simp [wT0], by simp [wT0]⟩ wgReach rfl rfl rfl⟩

/-- C6 counterexample: the derived key starts with `text_`, not with the
`text:` prefix stated by the claim. -/
theorem C6_counterexample :
    singleKey "50% off today only" false 7 9 ≠ "text:" ++ text_hash "50 off today only" := by
  decide

/-- The characters of an appended string are the appended character lists. -/
theorem data_append (a b : String) : (a ++ b).data = a.data ++ b.data := rfl

/-- The accumulator of `Nat.toDigitsCore` is a plain suffix of the result. -/
theorem toDigitsCore_shift (b : Nat) :
    ∀ (f n : Nat) (acc : List Char),
      Nat.toDigitsCore b f n acc = Nat.toDigitsCore b f n [] ++ acc := by
  intro f
  induction f with
  | zero => intro n acc; simp [Nat.toDigitsCore]
  | succ f ih =>
    intro n acc
    simp only [Nat.toDigitsCore]
    by_cases hd : n / b = 0
    · simp [hd]
    · simp only [hd, if_false]
      rw [ih (n / b) (Nat.digitChar (n % b) :: acc), ih (n / b) [Nat.digitChar (n % b)]]
      simp

/-- Decimal value of a digit-character list (inverse of `Nat.repr`). -/
def ofDigitChars (l : List Char) : Nat :=
  l.foldl (fun a c => a * 10 + (c.toNat - 48)) 0

/-- Appending one digit multiplies the value by ten and adds the digit. -/
theorem ofDigitChars_append_one (xs : List Char) (c : Char) :
    ofDigitChars (xs ++ [c]) = ofDigitChars xs * 10 + (c.toNat - 48) := by
  simp [ofDigitChars, List.foldl_append]

/-- `Nat.digitChar` of a decimal digit denotes that digit. -/
theorem digitChar_val : ∀ m < 10, (Nat.digitChar m).toNat - 48 = m := by decide

/-- With enough fuel, `Nat.toDigitsCore` renders exactly the decimal digits
of its input, whose value `ofDigitChars` recovers. -/
theorem toDigitsCore_recover :
    ∀ (f n : Nat), n < 10 ^ f → ofDigitChars (Nat.toDigitsCore 10 f n []) = n := by
  intro f
  induction f with
  | zero =>
    intro n hn
    interval_cases n
    simp [Nat.toDigitsCore, ofDigitChars]
  | succ f ih =>
    intro n hn
    simp only [Nat.toDigitsCore]
    by_cases hd : n / 10 = 0
    · have hlt : n < 10 := by omega
      simp [hd, ofDigitChars, Nat.mod_eq_of_lt hlt]
      exact digitChar_val n hlt
    · simp only [hd, if_false]
      rw [toDigitsCore_shift 10 f (n / 10) [Nat.digitChar (n % 10)],
        ofDigitChars_append_one, ih (n / 10) ?hlt,
        digitChar_val (n % 10) (Nat.mod_lt n (by norm_num))]
      · omega
      case hlt =>
        rw [Nat.div_lt_iff_lt_mul (show 0 < 10 by norm_num)]
        calc n < 10 ^ (f + 1) := hn
          _ = 10 ^ f * 10 := by ring

/-- `ofDigitChars` recovers a natural number from its `Nat.repr`. -/
theorem natRepr_recover (n : Nat) : ofDigitChars (Nat.repr n).data = n := by
  have hlt : n < 10 ^ (n + 1) :=
    Nat.lt_of_lt_of_le (Nat.lt_pow_self (by norm_num) n)
      (Nat.pow_le_pow_right (by norm_num) (Nat.le_succ n))
  have := toDigitsCore_recover (n + 1) n hlt
  simpa [Nat.repr, Nat.toDigits, List.asString] using this

/-- `Nat.repr` is injective. -/
theorem natRepr_inj (m n : Nat) (h : Nat.repr m = Nat.repr n) : m = n := by
  rw [← natRepr_recover m, ← natRepr_recover n, h]

/-- Decimal digit characters are neither underscore nor dash. -/
theorem digitChar_ne : ∀ m < 10, Nat.digitChar m ≠ '_' ∧ Nat.digitChar m ≠ '-' := by
  decide

/-- Every character `Nat.toDigitsCore` emits is a digit character below the
base, beyond the accumulator. -/
theorem toDigitsCore_chars (b : Nat) (hb : 0 < b) :
    ∀ (f n : Nat) (acc : List Char) (c : Char), c ∈ Nat.toDigitsCore b f n acc →
      (∃ m, m < b ∧ c = Nat.digitChar m) ∨ c ∈ acc := by
  intro f
  induction f with
  | zero => intro n acc c hc; simp [Nat.toDigitsCore] at hc; exact Or.inr hc
  | succ f ih =>
    intro n acc c hc
    simp only [Nat.toDigitsCore] at hc
    by_cases hd : n / b = 0
    · simp [hd] at hc
      rcases hc with hc | hc
      · exact Or.inl ⟨n % b, Nat.mod_lt n hb, hc⟩
      · exact Or.inr hc
    · simp only [hd, if_false] at hc
      rcases ih (n / b) (Nat.digitChar (n % b) :: acc) c hc with h | h
      · exact Or.inl h
      · rcases List.mem_cons.mp h with h | h
        · exact Or.inl ⟨n % b, Nat.mod_lt n hb, h⟩
        · exact Or.inr h

/-- Every character of `Nat.repr` is a decimal digit character. -/
theorem natRepr_chars (n : Nat) (c : Char) (hc : c ∈ (Nat.repr n).data) :
    ∃ m, m < 10 ∧ c = Nat.digitChar m := by
  have : c ∈ Nat.toDigitsCore 10 (n + 1) n [] := by
    simpa [Nat.repr, Nat.toDigits, List.asString] using hc
  rcases toDigitsCore_chars 10 (by norm_num) (n + 1) n [] c this with h | h
  · exact h
  · simp at h

/-- A rendered natural number contains no underscore. -/
theorem natRepr_no_underscore (n : Nat) : '_' ∉ (Nat.repr n).data := by
  intro hc
  obtain ⟨m, hm, he⟩ := natRepr_chars n '_' hc
  exact (digitChar_ne m hm).1 he.symm

/-- A rendered natural number contains no dash. -/
theorem natRepr_no_dash (n : Nat) : '-' ∉ (Nat.repr n).data := by
  intro hc
  obtain ⟨m, hm, he⟩ := natRepr_chars n '-' hc
  exact (digitChar_ne m hm).2 he.symm

/-- A rendered natural number is never the empty string. -/
theorem natRepr_ne_nil (n : Nat) : (Nat.repr n).data ≠ [] := by
  show (Nat.toDigits 10 n).asString.data ≠ []
  simp only [Nat.toDigits, List.asString]
  show Nat.toDigitsCore 10 (n + 1) n [] ≠ []
  simp only [Nat.toDigitsCore]
  by_cases hd : n / 10 = 0
  · simp [hd]
  · simp only [hd, if_false]
    rw [toDigitsCore_shift]
    simp

/-- Strings with equal character lists are equal. -/
theorem str_ext (a b : String) (h : a.data = b.data) : a = b := by
  cases a
  cases b
  exact congrArg String.mk h

/-- A rendered integer contains no underscore. -/
theorem intRepr_no_underscore (i : Int) : '_' ∉ (Int.repr i).data := by
  cases i with
  | ofNat m => exact natRepr_no_underscore m
  | negSucc m =>
    show '_' ∉ ("-" ++ Nat.repr (m + 1)).data
    rw [data_append]
    intro hc
    rcases List.mem_append.mp hc with hc | hc
    · simp at hc
    · exact natRepr_no_underscore (m + 1) hc

/-- `Int.repr` is injective. -/
theorem intRepr_inj (a b : Int) (h : Int.repr a = Int.repr b) : a = b := by
  cases a with
  | ofNat m =>
    cases b with
    | ofNat n => exact congrArg Int.ofNat (natRepr_inj m n h)
    | negSucc n =>
      exfalso
      have hd := congrArg String.data h
      rw [show Int.repr (Int.ofNat m) = Nat.repr m from rfl,
        show Int.repr (Int.negSucc n) = "-" ++ Nat.repr (n + 1) from rfl, data_append] at hd
      exact natRepr_no_dash m (by rw [hd]; simp)
  | negSucc m =>
    cases b with
    | ofNat n =>
      exfalso
      have hd := congrArg String.data h
      rw [show Int.repr (Int.negSucc m) = "-" ++ Nat.repr (m + 1) from rfl,
        show Int.repr (Int.ofNat n) = Nat.repr n from rfl, data_append] at hd
      exact natRepr_no_dash n (by rw [← hd]; simp)
    | negSucc n =>
      have hd := congrArg String.data h
      rw [show Int.repr (Int.negSucc m) = "-" ++ Nat.repr (m + 1) from rfl,
        show Int.repr (Int.negSucc n) = "-" ++ Nat.repr (n + 1) from rfl,
        data_append, data_append] at hd
      simp only [List.append_cancel_left_eq] at hd
      have := natRepr_inj (m + 1) (n + 1) (str_ext _ _ (by simpa using hd))
      exact congrArg Int.negSucc (by omega)

/-- Splitting at a delimiter absent from both prefixes is unambiguous. -/
theorem append_delim_inj (d : Char) :
    ∀ (xs xs' ys ys' : List Char), d ∉ xs → d ∉ xs' →
      xs ++ d :: ys = xs' ++ d :: ys' → xs = xs' ∧ ys = ys' := by
  intro xs
  induction xs with
  | nil =>
    intro xs' ys ys' _ hx' h
    cases xs' with
    | nil => simpa using h
    | cons a as =>
      simp at h
      exact absurd (h.1 ▸ List.mem_cons_self a as) hx'
  | cons a as ih =>
    intro xs' ys ys' hx hx' h
    cases xs' with
    | nil =>
      simp at h
      exact absurd (h.1 ▸ List.mem_cons_self a as) hx
    | cons a' as' =>
      simp only [List.cons_append, List.cons.injEq] at h
      obtain ⟨rfl, h2⟩ := h
      have := ih as' ys ys' (fun hc => hx (List.mem_cons_of_mem a hc))
        (fun hc => hx' (List.mem_cons_of_mem a hc)) h2
      exact ⟨by rw [this.1], this.2⟩

/-- The characters of the synthetic media-only string: the literal prefix,
the rendered chat id, an underscore, and the rendered message id. -/
theorem mediaOnlyText_data (cid : Int) (mid : Nat) :
    (mediaOnlyText cid mid).data =
      "media_only_".data ++ ((Int.repr cid).data ++ '_' :: (Nat.repr mid).data) := by
  unfold mediaOnlyText
  simp [data_append, toString, Int.repr]
  cases cid <;> rfl

/-- The synthetic media-only string determines the chat id and message id:
distinct media-only messages always produce distinct hash inputs. -/
theorem mediaOnlyText_inj (c1 : Int) (m1 : Nat) (c2 : Int) (m2 : Nat)
    (h : mediaOnlyText c1 m1 = mediaOnlyText c2 m2) : c1 = c2 ∧ m1 = m2 := by
  have hd := congrArg String.data h
  rw [mediaOnlyText_data, mediaOnlyText_data] at hd
  simp only [List.append_cancel_left_eq] at hd
  have := append_delim_inj '_' (Int.repr c1).data (Int.repr c2).data
    (Nat.repr m1).data (Nat.repr m2).data
    (intRepr_no_underscore c1) (intRepr_no_underscore c2) hd
  exact ⟨intRepr_inj c1 c2 (str_ext _ _ this.1),
    natRepr_inj m1 m2 (str_ext _ _ this.2)⟩

/-- C7 (amended): for a media message whose body has no URL and an empty
normalization, the key is `text_` followed by the hash of the synthetic
string `media_only_<chatId>_<msgId>`; origin 42 / message 7 gives
`text_<hash of "media_only_42_7">`; distinct media-only messages always
produce distinct synthetic hash inputs, so their keys differ barring a
SHA-256 collision (checked concretely on neighbouring inputs). -/
theorem C7_media_only_synthetic_key :
    (∀ text cid mid, firstProductKey (extract_urls text) = none →
      normalize_text text = "" →
      singleKey text true cid mid = "text_" ++ text_hash (mediaOnlyText cid mid)) ∧
    singleKey "" true 42 7 = "text_" ++ text_hash "media_only_42_7" ∧
    (∀ c1 m1 c2 m2, (c1, m1) ≠ (c2, m2) → mediaOnlyText c1 m1 ≠ mediaOnlyText c2 m2) ∧
    singleKey "" true 42 7 ≠ singleKey "" true 42 8 ∧
    singleKey "" true 42 7 ≠ singleKey "" true 43 7 ∧
    singleKey "" true 42 8 ≠ singleKey "" true 43 7 := by
  refine ⟨?_, rfl, ?_, by decide, by decide, by decide⟩
  · intro text cid mid hurl hnorm
    simp [singleKey, hurl, hnorm]
  · intro c1 m1 c2 m2 hne he
    obtain ⟨h1, h2⟩ := mediaOnlyText_inj c1 m1 c2 m2 he
    exact hne (by rw [h1, h2])

/-- C7 witness: the media-only message with empty body, origin 42,
message 7, instantiates the general media-only key rule. -/
theorem C7_media_only_synthetic_key_witness :
    singleKey "" true 42 7 = "text_" ++ text_hash (mediaOnlyText 42 7) :=
  C7_media_only_synthetic_key.1 "" 42 7 (by decide) (by decide)

/-- C7 counterexample: the derived key starts with `text_`, not with the
`text:` prefix stated by the claim. -/
theorem C7_counterexample :
    singleKey "" true 42 7 = "text_" ++ text_hash "media_only_42_7" ∧
    singleKey "" true 42 7 ≠ "text:" ++ text_hash "media_only_42_7" :=
  ⟨rfl, by decide⟩

/-- C8 (amended): a single-message event with no media and a blank body
whose insert succeeded logs the empty skip, immediately attempts the
release, never forwards and never delivers; when the release call succeeds
the run ends in the EMPTY outcome with exactly that one release.  (Album
runs behave differently — see the counterexample.) -/
theorem C8_empty_single_released (msg : Msg) (env : Env) (rid : Nat)
    (hg : msg.groupedId = none) (hi : env.insertResp = .data (some rid))
    (hm : msg.hasMedia = false) (ht : pyStrip (msg.text.getD "") = "") :
    (runSingle msg env).emptyLogged = true ∧
    1 ≤ (runSingle msg env).releaseAttempts ∧
    (runSingle msg env).outcome ≠ .forwarded ∧
    (runSingle msg env).delivered = 0 ∧
    (env.release1Ok = true →
      (runSingle msg env).outcome = .empty ∧ (runSingle msg env).releaseAttempts = 1) := by
  have he := runSingle_reserved msg env (some rid) hg hi
  have hps : postReserveSingle msg.hasMedia (msg.text.getD "") (some rid) env.toNetEnv =
      emptyPath (some rid) env.toNetEnv := by
    simp [postReserveSingle, hm, ht]
  rw [hps] at he
  rw [he]
  cases hr1 : env.release1Ok with
  | true => simp [emptyPath, hr1]
  | false => simp [emptyPath, hr1]

/-- C8 witness: a concrete blank, media-less message with a successful
reservation and a successful release ends EMPTY after one release. -/
theorem C8_empty_single_released_witness :
    (runSingle ⟨6, 12, some "  ", false, none⟩
        ⟨⟨.ok, .ok, true, true⟩, .data (some 2)⟩).outcome = .empty ∧
    (runSingle ⟨6, 12, some "  ", false, none⟩
        ⟨⟨.ok, .ok, true, true⟩, .data (some 2)⟩).releaseAttempts = 1 :=
  (C8_empty_single_released ⟨6, 12, some "  ", false, none⟩
    ⟨⟨.ok, .ok, true, true⟩, .data (some 2)⟩ 2 rfl rfl rfl (by decide)).2.2.2.2 rfl

/-- C8 counterexample: an album event with neither text nor media whose
insert succeeded ends FORWARDED — `forward_album` sends nothing and the
handler logs success — and the reservation is never released, contradicting
the claimed EMPTY outcome for album events. -/
theorem C8_counterexample :
    (runAlbum [⟨none, false⟩] ⟨⟨.ok, .ok, true, true⟩, .data (some 5)⟩).outcome =
      .forwarded ∧
    (runAlbum [⟨none, false⟩] ⟨⟨.ok, .ok, true, true⟩, .data (some 5)⟩).releaseAttempts = 0 ∧
    (runAlbum [⟨none, false⟩] ⟨⟨.ok, .ok, true, true⟩, .data (some 5)⟩).delivered = 0 ∧
    (runAlbum [⟨none, false⟩] ⟨⟨.ok, .ok, true, true⟩, .data (some 5)⟩).emptyLogged = false :=
  ⟨rfl, rfl, rfl, rfl⟩
